import Mathlib

/-!
Verification of the Normalization & Analytics Engine of strava-stats-go.

The Go source under internal/api (normalize.go, running.go, trends.go) is
shallowly embedded here:
* float64 fields become exact rationals (ℚ);
* Go int becomes Int, or Nat for quantities that are counts or nonnegative
  durations (moving time in seconds);
* a time.Time is modelled at calendar-day granularity as its day number
  (an Int counting days since 1970-01-01), because every operation the
  engine performs on times (truncateToDate, extractLocalDate, Before,
  After, AddDate with days, Format as YYYY-MM-DD, IsZero) factors through
  the calendar day;
* Go slices become lists, and the loops over them become folds;
* Int division written with / and % below is Euclidean; every place it is
  used the operands are nonnegative, where it agrees with the truncating
  division of Go.
-/

namespace StravaStats

/-- Rounding of math.Round in Go: round half away from zero. -/
def goRound (x : ℚ) : Int :=
  if x < 0 then -(⌊-x + 1/2⌋) else ⌊x + 1/2⌋

/-- Rendering of the printf verb %02d for the nonnegative values used here:
zero-pad to two digits. -/
def pad2 (n : Int) : String :=
  if 0 ≤ n ∧ n < 10 then "0" ++ toString n else toString n

/-- Zero-padding of a year to four digits, as time.Format with layout 2006
produces for the years in range. -/
def pad4 (n : Int) : String :=
  if 0 ≤ n ∧ n < 10 then "000" ++ toString n
  else if 0 ≤ n ∧ n < 100 then "00" ++ toString n
  else if 0 ≤ n ∧ n < 1000 then "0" ++ toString n
  else toString n

/-- formatPace from running.go: pace in seconds rendered as minutes:seconds,
seconds zero-padded to two digits. -/
def formatPace (paceSec : ℚ) : String :=
  let totalSeconds : Int := goRound paceSec
  let minutes : Int := totalSeconds / 60
  let seconds : Int := totalSeconds % 60
  toString minutes ++ ":" ++ pad2 seconds

/-- formatPaceSeconds from trends.go; the Go source duplicates formatPace. -/
def formatPaceSeconds (paceSec : ℚ) : String :=
  let totalSeconds : Int := goRound paceSec
  let minutes : Int := totalSeconds / 60
  let seconds : Int := totalSeconds % 60
  toString minutes ++ ":" ++ pad2 seconds

/-- FormatDuration from normalize.go. The argument is the number of seconds;
it is a Go int, always fed from nonnegative moving times, modelled as Nat. -/
def FormatDuration (seconds : Nat) : String :=
  if seconds < 60 then toString seconds ++ "s"
  else
    let hours := seconds / 3600
    let minutes := (seconds % 3600) / 60
    let secs := seconds % 60
    if 0 < hours then
      if 0 < minutes then
        if 0 < secs then
          toString hours ++ "h " ++ toString minutes ++ "m " ++ toString secs ++ "s"
        else toString hours ++ "h " ++ toString minutes ++ "m"
      else if 0 < secs then toString hours ++ "h " ++ toString secs ++ "s"
      else toString hours ++ "h"
    else if 0 < secs then toString minutes ++ "m " ++ toString secs ++ "s"
    else toString minutes ++ "m"

/-- Byte-lexicographic string comparison of Go, as an executable Bool.
The proposition it decides is exactly the order of String.lt (the
lexicographic order on the character data). -/
def strLtb (a b : String) : Bool :=
  decide (a.data < b.data)

/-! Calendar model.  Day numbers count days since 1970-01-01.  The civil
calendar conversions implement the proleptic Gregorian calendar used by
package time of Go. -/

/-- Calendar date: the year, month and day components of a Go time.Time. -/
structure CivilDate where
  year : Int
  month : Int
  day : Int
deriving DecidableEq, Repr

/-- Leap year test of the Gregorian calendar (time.Date normalization). -/
def isLeapYear (y : Int) : Bool :=
  y % 4 = 0 && (y % 100 ≠ 0 || y % 400 = 0)

/-- Number of days of a month in the Gregorian calendar. -/
def daysInMonth (y m : Int) : Int :=
  if m = 1 ∨ m = 3 ∨ m = 5 ∨ m = 7 ∨ m = 8 ∨ m = 10 ∨ m = 12 then 31
  else if m = 4 ∨ m = 6 ∨ m = 9 ∨ m = 11 then 30
  else if isLeapYear y then 29 else 28

/-- Day number of a civil date (days since 1970-01-01). -/
def daysFromCivil (c : CivilDate) : Int :=
  let y := c.year - (if c.month ≤ 2 then 1 else 0)
  let era := y / 400
  let yoe := y % 400
  let mp := c.month + (if 2 < c.month then -3 else 9)
  let doy := (153 * mp + 2) / 5 + c.day - 1
  let doe := yoe * 365 + yoe / 4 - yoe / 100 + doy
  era * 146097 + doe - 719468

/-- Civil date of a day number (days since 1970-01-01). -/
def civilFromDays (z : Int) : CivilDate :=
  let z := z + 719468
  let era := z / 146097
  let doe := z % 146097
  let yoe := (doe - doe / 1460 + doe / 36524 - doe / 146096) / 365
  let y := yoe + era * 400
  let doy := doe - (365 * yoe + yoe / 4 - yoe / 100)
  let mp := (5 * doy + 2) / 153
  let d := doy - (153 * mp + 2) / 5 + 1
  let m := mp + (if mp < 10 then 3 else -9)
  ⟨y + (if m ≤ 2 then 1 else 0), m, d⟩

/-- Weekday of a day number in the convention of time.Weekday: Sunday is 0,
Monday is 1.  Day 0 (1970-01-01) was a Thursday. -/
def goWeekday (z : Int) : Int :=
  (z + 4) % 7

/-- Rendering of a date with the Go layout 2006-01-02 (YYYY-MM-DD). -/
def formatCivilDate (c : CivilDate) : String :=
  pad4 c.year ++ "-" ++ pad2 c.month ++ "-" ++ pad2 c.day

/-- Numeric value of a decimal digit character. -/
def digitVal (c : Char) : Int :=
  (c.toNat : Int) - 48

/-- Parsing of time.Parse with layout 2006-01-02: exactly four digits, hyphen,
two digits, hyphen, two digits, with the month and day range-checked against
the Gregorian calendar.  Failure is none. -/
def parseDate (s : String) : Option CivilDate :=
  match s.data with
  | [y1, y2, y3, y4, h1, m1, m2, h2, d1, d2] =>
    if y1.isDigit ∧ y2.isDigit ∧ y3.isDigit ∧ y4.isDigit ∧ h1 = '-' ∧
        m1.isDigit ∧ m2.isDigit ∧ h2 = '-' ∧ d1.isDigit ∧ d2.isDigit then
      let y := 1000 * digitVal y1 + 100 * digitVal y2 + 10 * digitVal y3 + digitVal y4
      let m := 10 * digitVal m1 + digitVal m2
      let d := 10 * digitVal d1 + digitVal d2
      if 1 ≤ m ∧ m ≤ 12 ∧ 1 ≤ d ∧ d ≤ daysInMonth y m then some ⟨y, m, d⟩ else none
    else none
  | _ => none

/-! Data model of normalize.go. -/

/-- Activity from strava.go, restricted to the fields the engine reads.
StartDate and StartDateLocal are day numbers (see the header); the optional
physiological fields (cadence, watts, heart rate, ...) are never read by the
engine and are omitted. -/
structure Activity where
  ID : Int
  Name : String
  SportType : String
  StartDate : Int
  StartDateLocal : Int
  Timezone : String
  MovingTime : Nat
  ElapsedTime : Nat
  Distance : ℚ
  TotalElevationGain : ℚ
  AverageSpeed : ℚ
  MaxSpeed : ℚ
deriving DecidableEq, Repr

/-- NormalizedActivity from normalize.go: the embedded Activity plus the
derived fields. -/
structure NormalizedActivity extends Activity where
  LocalDate : Int
  LocalDateStr : String
  DistanceKm : ℚ
  DistanceMiles : ℚ
  MovingTimeHours : ℚ
  MovingTimeFormatted : String
  ElevationGainMeters : ℚ
  ElevationGainFeet : ℚ
  AverageSpeedKmh : ℚ
  AverageSpeedMph : ℚ
  MaxSpeedKmh : ℚ
  MaxSpeedMph : ℚ
deriving DecidableEq, Repr

/-- NormalizeOptions from normalize.go.  StartDate and EndDate are time.Time
values (day numbers here); the zero time of Go marks them unset. -/
structure NormalizeOptions where
  DaysBack : Int
  StartDate : Int
  EndDate : Int
deriving DecidableEq, Repr

/-- Day number of the zero value of time.Time (January 1, year 1). -/
def goZeroDay : Int := daysFromCivil ⟨1, 1, 1⟩

/-- The IsZero test of time.Time under the day-granularity model. -/
def isZeroTime (t : Int) : Bool :=
  t = goZeroDay

/-- extractLocalDate from normalize.go: the UTC date components of the
timestamp; the timezone argument is ignored by the Go code as well.  At
day granularity this is the day number itself. -/
def extractLocalDate (t : Int) (_timezone : String) : Int := t

/-- truncateToDate from normalize.go: strips the time of day.  At day
granularity this is the identity. -/
def truncateToDate (t : Int) : Int := t

/-- normalizeActivity from normalize.go: unit conversions on one activity. -/
def normalizeActivity (activity : Activity) (localDate : Int) : NormalizedActivity :=
  { toActivity := activity
    LocalDate := localDate
    LocalDateStr := formatCivilDate (civilFromDays localDate)
    DistanceKm := activity.Distance / 1000
    DistanceMiles := activity.Distance / 1609.34
    MovingTimeHours := (activity.MovingTime : ℚ) / 3600
    MovingTimeFormatted := FormatDuration activity.MovingTime
    ElevationGainMeters := activity.TotalElevationGain
    ElevationGainFeet := activity.TotalElevationGain * 3.28084
    AverageSpeedKmh := activity.AverageSpeed * 3.6
    AverageSpeedMph := activity.AverageSpeed * 2.23694
    MaxSpeedKmh := activity.MaxSpeed * 3.6
    MaxSpeedMph := activity.MaxSpeed * 2.23694 }

/-- Window resolution of NormalizeActivities (normalize.go lines 41 to 56):
an explicit pair wins when both dates are set, otherwise DaysBack is used,
silently replaced by 7 when nonpositive.  now is truncateToDate (time.Now()). -/
def resolveWindow (now : Int) (opts : NormalizeOptions) : Int × Int :=
  if ¬ isZeroTime opts.StartDate ∧ ¬ isZeroTime opts.EndDate then
    (truncateToDate opts.StartDate, truncateToDate opts.EndDate)
  else
    let daysBack := if opts.DaysBack ≤ 0 then 7 else opts.DaysBack
    (now - daysBack, now)

/-- NormalizeActivities from normalize.go.  The nil options pointer becomes
none; now is the truncated current date, passed explicitly.  The debug
print statements of the Go code have no effect on the value and are not
modelled. -/
def NormalizeActivities (activities : List Activity) (opts : Option NormalizeOptions)
    (now : Int) : List NormalizedActivity :=
  let opts := opts.getD ⟨7, goZeroDay, goZeroDay⟩
  let w := resolveWindow now opts
  activities.foldl
    (fun acc activity =>
      let localDate := extractLocalDate activity.StartDateLocal activity.Timezone
      let localDateTruncated := truncateToDate localDate
      if localDateTruncated < w.1 ∨ w.2 < localDateTruncated then acc
      else acc ++ [normalizeActivity activity localDate])
    []

/-! Embedding of running.go. -/

/-- RunningStats from running.go. -/
structure RunningStats where
  TotalRuns : Nat
  RunsOver10K : Nat
  TotalDistance : ℚ
  TotalDistanceMiles : ℚ
  AveragePace : String
  AveragePaceMinPerKm : String
deriving DecidableEq, Repr

/-- RunRecord from running.go. -/
structure RunRecord where
  ID : Int
  Name : String
  Date : String
  Distance : ℚ
  DistanceMiles : ℚ
  MovingTime : Nat
  Pace : String
  PaceMinPerKm : String
  ElevationGain : ℚ
  ElevationGainFeet : ℚ
deriving DecidableEq, Repr

/-- PersonalRecords from running.go; the nil pointers become none. -/
structure PersonalRecords where
  FastestMile : Option RunRecord
  Fastest10K : Option RunRecord
  LongestRun : Option RunRecord
  MostElevation : Option RunRecord
deriving DecidableEq, Repr

/-- HistogramBin from running.go. -/
structure HistogramBin where
  Range : String
  RangeKm : String
  Count : Nat
  Distance : ℚ
  DistanceMiles : ℚ
deriving DecidableEq, Repr

/-- DistanceHistogram from running.go. -/
structure DistanceHistogram where
  Bins : List HistogramBin
deriving DecidableEq, Repr

/-- isRunningActivity from running.go: the closed set of running sport types. -/
def isRunningActivity (sportType : String) : Bool :=
  sportType = "Run" || sportType = "VirtualRun" || sportType = "TrailRun"

/-- Accumulator of the single pass of CalculateRunningStats. -/
structure RunningAcc where
  totalRuns : Nat
  totalDistance : ℚ
  totalMovingTime : Nat
  runsOver10K : Nat

/-- Loop body of CalculateRunningStats (running.go lines 72 to 85). -/
def runningStatsStep (acc : RunningAcc) (activity : NormalizedActivity) : RunningAcc :=
  if isRunningActivity activity.SportType then
    { totalRuns := acc.totalRuns + 1
      totalDistance := acc.totalDistance + activity.Distance
      totalMovingTime := acc.totalMovingTime + activity.MovingTime
      runsOver10K := if 10000 ≤ activity.Distance then acc.runsOver10K + 1 else acc.runsOver10K }
  else acc

/-- CalculateRunningStats from running.go. -/
def CalculateRunningStats (activities : List NormalizedActivity) : RunningStats :=
  let acc := activities.foldl runningStatsStep ⟨0, 0, 0, 0⟩
  let base : RunningStats :=
    { TotalRuns := acc.totalRuns
      RunsOver10K := acc.runsOver10K
      TotalDistance := acc.totalDistance
      TotalDistanceMiles := acc.totalDistance / 1609.34
      AveragePace := ""
      AveragePaceMinPerKm := "" }
  if 0 < acc.totalRuns ∧ 0 < acc.totalDistance then
    let paceSecPerMeter := (acc.totalMovingTime : ℚ) / acc.totalDistance
    { base with
      AveragePace := formatPace (paceSecPerMeter * 1609.34)
      AveragePaceMinPerKm := formatPace (paceSecPerMeter * 1000) }
  else base

/-- createRunRecord from running.go. -/
def createRunRecord (activity : NormalizedActivity) : RunRecord :=
  let base : RunRecord :=
    { ID := activity.ID
      Name := activity.Name
      Date := activity.LocalDateStr
      Distance := activity.Distance
      DistanceMiles := activity.DistanceMiles
      MovingTime := activity.MovingTime
      Pace := ""
      PaceMinPerKm := ""
      ElevationGain := activity.TotalElevationGain
      ElevationGainFeet := activity.ElevationGainFeet }
  if 0 < activity.Distance ∧ 0 < activity.MovingTime then
    let paceSecPerMeter := (activity.MovingTime : ℚ) / activity.Distance
    { base with
      Pace := formatPace (paceSecPerMeter * 1609.34)
      PaceMinPerKm := formatPace (paceSecPerMeter * 1000) }
  else base

/-- Accumulator of the pass of CalculatePersonalRecords: the four sentinel
variables (initialized to -1) together with the records found so far. -/
structure PRAcc where
  fastestMileTime : Int
  fastest10KTime : Int
  longestDistance : ℚ
  mostElevation : ℚ
  prs : PersonalRecords

/-- Loop body of CalculatePersonalRecords (running.go lines 122 to 154). -/
def personalRecordsStep (acc : PRAcc) (activity : NormalizedActivity) : PRAcc :=
  if isRunningActivity activity.SportType then
    let acc :=
      if 1609.34 - 200 ≤ activity.Distance ∧ activity.Distance ≤ 1609.34 + 200 then
        if acc.fastestMileTime = -1 ∨ (activity.MovingTime : Int) < acc.fastestMileTime then
          { acc with fastestMileTime := activity.MovingTime
                     prs := { acc.prs with FastestMile := some (createRunRecord activity) } }
        else acc
      else acc
    let acc :=
      if 10000 - 500 ≤ activity.Distance ∧ activity.Distance ≤ 10000 + 500 then
        if acc.fastest10KTime = -1 ∨ (activity.MovingTime : Int) < acc.fastest10KTime then
          { acc with fastest10KTime := activity.MovingTime
                     prs := { acc.prs with Fastest10K := some (createRunRecord activity) } }
        else acc
      else acc
    let acc :=
      if acc.longestDistance < activity.Distance then
        { acc with longestDistance := activity.Distance
                   prs := { acc.prs with LongestRun := some (createRunRecord activity) } }
      else acc
    let acc :=
      if acc.mostElevation < activity.TotalElevationGain then
        { acc with mostElevation := activity.TotalElevationGain
                   prs := { acc.prs with MostElevation := some (createRunRecord activity) } }
      else acc
    acc
  else acc

/-- CalculatePersonalRecords from running.go. -/
def CalculatePersonalRecords (activities : List NormalizedActivity) : PersonalRecords :=
  (activities.foldl personalRecordsStep ⟨-1, -1, -1, -1, ⟨none, none, none, none⟩⟩).prs

/-- Mathematical floor, the value of int(math.Floor x) in exact arithmetic. -/
def ratFloor (x : ℚ) : Int := ⌊x⌋

/-- Mathematical ceiling, the value of int(math.Ceil x) in exact arithmetic. -/
def ratCeil (x : ℚ) : Int := -(⌊-x⌋)

/-- formatRangeMiles from running.go: both endpoints converted to miles,
rounded to one decimal place and printed with one decimal digit. -/
def formatRangeMiles (startMeters endMeters : ℚ) : String :=
  let s := goRound (startMeters / 1609.34 * 10)
  let e := goRound (endMeters / 1609.34 * 10)
  toString (s / 10) ++ "." ++ toString (s % 10) ++ "-" ++
    toString (e / 10) ++ "." ++ toString (e % 10) ++ " mi"

/-- formatRangeKm from running.go. -/
def formatRangeKm (startMeters endMeters : ℚ) : String :=
  let s := goRound (startMeters / 1000 * 10)
  let e := goRound (endMeters / 1000 * 10)
  toString (s / 10) ++ "." ++ toString (s % 10) ++ "-" ++
    toString (e / 10) ++ "." ++ toString (e % 10) ++ " km"

/-- Bin width selection of GenerateDistanceHistogram. -/
def histBinSize (useMiles : Bool) : ℚ :=
  if useMiles then 1609.34 else 1000

/-- Maximum distance scan of GenerateDistanceHistogram (initial value 0). -/
def histMaxDistance (runs : List NormalizedActivity) : ℚ :=
  runs.foldl (fun m run => if m < run.Distance then run.Distance else m) 0

/-- Bin count of GenerateDistanceHistogram: ceil(max/binSize)+1, capped at 50. -/
def histNumBins (maxDistance binSize : ℚ) : Nat :=
  let numBins := ratCeil (maxDistance / binSize) + 1
  (if 50 < numBins then 50 else numBins).toNat

/-- Initialization of the bins with their range labels (running.go lines 198
to 219; both branches of the useMiles conditional compute the same labels). -/
def initialBins (numBins : Nat) (binSize : ℚ) : List HistogramBin :=
  (List.range numBins).map fun (i : Nat) =>
    { Range := formatRangeMiles ((i : ℚ) * binSize) (((i : ℚ) + 1) * binSize)
      RangeKm := formatRangeKm ((i : ℚ) * binSize) (((i : ℚ) + 1) * binSize)
      Count := 0
      Distance := 0
      DistanceMiles := 0 }

/-- Replacement of the element at an index of a list, the other elements kept. -/
def modifyAt (l : List α) (i : Nat) (f : α → α) : List α :=
  match l, i with
  | [], _ => []
  | a :: as, 0 => f a :: as
  | a :: as, n + 1 => a :: modifyAt as n f

/-- Loop body of the bin population of GenerateDistanceHistogram (running.go
lines 222 to 232): the bin index is the floor of distance over bin size,
clamped to the last bin from above and dropped when negative. -/
def populateStep (binSize : ℚ) (numBins : Nat) (bins : List HistogramBin)
    (run : NormalizedActivity) : List HistogramBin :=
  let rawIndex : Int := ratFloor (run.Distance / binSize)
  let binIndex : Int := if (numBins : Int) ≤ rawIndex then (numBins : Int) - 1 else rawIndex
  if 0 ≤ binIndex ∧ binIndex < (numBins : Int) then
    modifyAt bins binIndex.toNat fun b =>
      { b with Count := b.Count + 1
               Distance := b.Distance + run.Distance
               DistanceMiles := b.DistanceMiles + run.Distance / 1609.34 }
  else bins

/-- Bin population loop of GenerateDistanceHistogram. -/
def populateBins (bins : List HistogramBin) (runs : List NormalizedActivity)
    (binSize : ℚ) (numBins : Nat) : List HistogramBin :=
  runs.foldl (populateStep binSize numBins) bins

/-- Trailing trim of GenerateDistanceHistogram (running.go lines 235 to 240):
scan from the end for the last bin with a positive count and keep the prefix
up to it; all bins empty leaves the empty output. -/
def trimTrailingEmptyBins (bins : List HistogramBin) : List HistogramBin :=
  ((bins.reverse).dropWhile (fun b => b.Count = 0)).reverse

/-- GenerateDistanceHistogram from running.go. -/
def GenerateDistanceHistogram (activities : List NormalizedActivity)
    (useMiles : Bool) : DistanceHistogram :=
  let runs := activities.filter fun activity => isRunningActivity activity.SportType
  if runs.isEmpty then ⟨[]⟩
  else
    let binSize := histBinSize useMiles
    let maxDistance := histMaxDistance runs
    let numBins := histNumBins maxDistance binSize
    ⟨trimTrailingEmptyBins (populateBins (initialBins numBins binSize) runs binSize numBins)⟩

/-! Embedding of trends.go. -/

/-- TrendDataPoint from trends.go. -/
structure TrendDataPoint where
  Date : String
  Distance : ℚ
  DistanceMiles : ℚ
  Pace : String
  PaceMinPerKm : String
  Count : Nat
deriving DecidableEq, Repr

/-- TrendData from trends.go. -/
structure TrendData where
  Period : String
  Points : List TrendDataPoint
deriving DecidableEq, Repr

/-- The point with all fields zero, used only as the out-of-range default of
list indexing. -/
def emptyPoint : TrendDataPoint :=
  ⟨"", 0, 0, "", "", 0⟩

/-- Offset, in days, from a day number back to the start of its week as
computed by the weekly branch of getPeriodKey: the weekday with Sunday
mapped to 7 instead of 0, minus one. -/
def weeklyOffset (z : Int) : Int :=
  (if goWeekday z = 0 then 7 else goWeekday z) - 1

/-- getPeriodKey from trends.go: parse the YYYY-MM-DD key (returned unchanged
on failure), then map to the Monday of its week (weekly), the first of its
month (monthly) or itself (default, the daily case). -/
def getPeriodKey (dateStr : String) (period : String) : String :=
  match parseDate dateStr with
  | none => dateStr
  | some t =>
    if period = "weekly" then
      let z := daysFromCivil t
      formatCivilDate (civilFromDays (z - weeklyOffset z))
    else if period = "monthly" then
      formatCivilDate ⟨t.year, t.month, 1⟩
    else dateStr

/-- Insertion into the grouping accumulator: Go uses a map from key to slice;
the model keys an association list in first-insertion order.  The iteration
order of the Go map is unspecified, but the points built from the groups are
sorted by key afterwards and the keys are distinct, so the final value does
not depend on it. -/
def insertGroup (groups : List (String × List NormalizedActivity)) (k : String)
    (a : NormalizedActivity) : List (String × List NormalizedActivity) :=
  match groups with
  | [] => [(k, [a])]
  | (k', g) :: rest =>
    if k' = k then (k', g ++ [a]) :: rest else (k', g) :: insertGroup rest k a

/-- groupByPeriod from trends.go. -/
def groupByPeriod (activities : List NormalizedActivity) (period : String) :
    List (String × List NormalizedActivity) :=
  activities.foldl (fun groups activity =>
    insertGroup groups (getPeriodKey activity.LocalDateStr period) activity) []

/-- calculatePeriodAverage from trends.go: per-bucket totals, with the pace
derived from the aggregate distance and time when all of count, distance and
time are positive. -/
def calculatePeriodAverage (activities : List NormalizedActivity) (dateStr : String) :
    TrendDataPoint :=
  let totalDistance := activities.foldl (fun s activity => s + activity.Distance) 0
  let totalMovingTime := activities.foldl (fun s activity => s + activity.MovingTime) (0 : Nat)
  let base : TrendDataPoint :=
    { Date := dateStr
      Distance := totalDistance
      DistanceMiles := totalDistance / 1609.34
      Pace := ""
      PaceMinPerKm := ""
      Count := activities.length }
  if 0 < activities.length ∧ 0 < totalDistance ∧ 0 < totalMovingTime then
    let paceSecPerMeter := (totalMovingTime : ℚ) / totalDistance
    { base with
      Pace := formatPaceSeconds (paceSecPerMeter * 1609.34)
      PaceMinPerKm := formatPaceSeconds (paceSecPerMeter * 1000) }
  else base

/-- Inner loop of sortTrendPoints at one outer index: the current element x
is compared against each later element and swapped with it when larger, so
the pass returns the minimum together with the remaining elements in place. -/
def sortPass (x : TrendDataPoint) : List TrendDataPoint →
    TrendDataPoint × List TrendDataPoint
  | [] => (x, [])
  | y :: ys =>
    if strLtb y.Date x.Date then
      let r := sortPass y ys
      (r.1, x :: r.2)
    else
      let r := sortPass x ys
      (r.1, y :: r.2)

/-- Outer loop of sortTrendPoints; the fuel argument equals the length of the
list and only drives the structural recursion. -/
def sortTrendPointsGo : Nat → List TrendDataPoint → List TrendDataPoint
  | _, [] => []
  | 0, l => l
  | fuel + 1, x :: xs =>
    let r := sortPass x xs
    r.1 :: sortTrendPointsGo fuel r.2

/-- sortTrendPoints from trends.go: the exchange sort over the date strings. -/
def sortTrendPoints (points : List TrendDataPoint) : List TrendDataPoint :=
  sortTrendPointsGo points.length points

/-- applyMovingAverage from trends.go: unless the series is no longer than
the window, every point takes the average distance of the window of points
around it (clamped to the list; Nat subtraction clamps the start at 0 just
as the Go code does), where only points with positive distance count toward
the denominator.  Pace fields are copied unchanged. -/
def applyMovingAverage (points : List TrendDataPoint) (window : Nat) :
    List TrendDataPoint :=
  if points.length ≤ window then points
  else
    let halfWindow := window / 2
    (List.range points.length).map fun i =>
      let p := points.getD i emptyPoint
      let start := i - halfWindow
      let stop := min (i + halfWindow + 1) points.length
      let js := List.range' start (stop - start)
      let sumDistance := (js.map fun j => (points.getD j emptyPoint).Distance).sum
      let count := (js.filter fun j => 0 < (points.getD j emptyPoint).Distance).length
      if 0 < count then
        let avgDistance := sumDistance / (count : ℚ)
        { p with Distance := avgDistance, DistanceMiles := avgDistance / 1609.34 }
      else p

/-- CalculateTrends from trends.go. -/
def CalculateTrends (activities : List NormalizedActivity) (period : String)
    (runningOnly : Bool) : TrendData :=
  let filteredActivities :=
    if runningOnly then
      activities.filter fun activity =>
        activity.SportType = "Run" ∨ activity.SportType = "VirtualRun" ∨
          activity.SportType = "TrailRun"
    else activities
  if filteredActivities.isEmpty then ⟨period, []⟩
  else
    let grouped := groupByPeriod filteredActivities period
    let points := grouped.map fun g => calculatePeriodAverage g.2 g.1
    let points := sortTrendPoints points
    let points :=
      if period = "daily" ∧ 1 < points.length then applyMovingAverage points 3 else points
    ⟨period, points⟩

/-! Specification-side definitions, written from the wording of the
specification for comparison against the embedded code. -/

/-- The running activities of a collection, in input order. -/
def runsOf (activities : List NormalizedActivity) : List NormalizedActivity :=
  activities.filter fun activity => isRunningActivity activity.SportType

/-- Aggregate distance of a collection. -/
def sumDistance (activities : List NormalizedActivity) : ℚ :=
  (activities.map fun activity => activity.Distance).sum

/-- Aggregate moving time of a collection. -/
def sumMovingTime (activities : List NormalizedActivity) : Nat :=
  (activities.map fun activity => activity.MovingTime).sum

/-- The unit components of the specification for formatDuration: the largest
nonzero units down to seconds, the zero-valued components omitted. -/
def durationParts (s : Nat) : List String :=
  (if s / 3600 ≠ 0 then [toString (s / 3600) ++ "h"] else []) ++
    (if (s % 3600) / 60 ≠ 0 then [toString ((s % 3600) / 60) ++ "m"] else []) ++
      (if s % 60 ≠ 0 then [toString (s % 60) ++ "s"] else [])

/-! Helper lemmas on strings. -/

theorem intercalate_one (x : String) : String.intercalate (" ") [x] = x := rfl

theorem intercalate_two (x y : String) :
    String.intercalate (" ") [x, y] = x ++ " " ++ y := rfl

theorem intercalate_three (x y z : String) :
    String.intercalate (" ") [x, y, z] = x ++ " " ++ y ++ " " ++ z := rfl

theorem h_space_split : ("h " : String) = "h" ++ " " := rfl

theorem m_space_split : ("m " : String) = "m" ++ " " := rfl

/-- C9: FormatDuration renders values under one minute as seconds, otherwise
the nonzero units from hours down to seconds joined by spaces, matching the
literal table of the specification. -/
theorem formatDuration_correct :
    (FormatDuration 0 = "0s" ∧ FormatDuration 59 = "59s" ∧ FormatDuration 60 = "1m" ∧
      FormatDuration 3661 = "1h 1m 1s" ∧ FormatDuration 3600 = "1h" ∧
      FormatDuration 36000 = "10h") ∧
    (∀ s : Nat, s < 60 → FormatDuration s = toString s ++ "s") ∧
    (∀ s : Nat, 60 ≤ s → FormatDuration s = String.intercalate (" ") (durationParts s)) := by
  refine ⟨⟨by decide, by decide, by decide, by decide, by decide, by decide⟩, ?_, ?_⟩
  · intro s hs
    simp [FormatDuration, hs]
  · intro s hs
    have hlt : ¬ s < 60 := by omega
    by_cases h1 : s / 3600 = 0 <;> by_cases h2 : (s % 3600) / 60 = 0 <;>
      by_cases h3 : s % 60 = 0
    · omega
    · omega
    · simp [FormatDuration, durationParts, hlt, h1, h2, h3, intercalate_one,
        Nat.pos_iff_ne_zero]
    · simp [FormatDuration, durationParts, hlt, h1, h2, h3, intercalate_two,
        Nat.pos_iff_ne_zero, m_space_split, String.append_assoc]
    · simp [FormatDuration, durationParts, hlt, h1, h2, h3, intercalate_one,
        Nat.pos_iff_ne_zero]
    · simp [FormatDuration, durationParts, hlt, h1, h2, h3, intercalate_two,
        Nat.pos_iff_ne_zero, h_space_split, String.append_assoc]
    · simp [FormatDuration, durationParts, hlt, h1, h2, h3, intercalate_two,
        Nat.pos_iff_ne_zero, h_space_split, String.append_assoc]
    · simp [FormatDuration, durationParts, hlt, h1, h2, h3, intercalate_three,
        Nat.pos_iff_ne_zero, h_space_split, m_space_split, String.append_assoc]

/-- C9 witness at concrete inputs for both conditional parts. -/
theorem formatDuration_correct_witness :
    (59 < 60 ∧ FormatDuration 59 = toString 59 ++ "s") ∧
    (60 ≤ 3661 ∧ FormatDuration 3661 = String.intercalate (" ") (durationParts 3661)) :=
  ⟨⟨by decide, formatDuration_correct.2.1 59 (by decide)⟩,
    ⟨by decide, formatDuration_correct.2.2 3661 (by decide)⟩⟩

/-- C7: window resolution defaults.  A nonpositive DaysBack without a full
explicit date pair is silently replaced by 7; with DaysBack in use the window
ends today and starts DaysBack days earlier; a full explicit pair wins. -/
theorem resolveWindow_defaults :
    (∀ (now db sd ed : Int), db ≤ 0 → (isZeroTime sd ∨ isZeroTime ed) →
      resolveWindow now ⟨db, sd, ed⟩ = (now - 7, now)) ∧
    (∀ (now db sd ed : Int), 0 < db → (isZeroTime sd ∨ isZeroTime ed) →
      resolveWindow now ⟨db, sd, ed⟩ = (now - db, now)) ∧
    (∀ (now db sd ed : Int), ¬ isZeroTime sd → ¬ isZeroTime ed →
      resolveWindow now ⟨db, sd, ed⟩ = (truncateToDate sd, truncateToDate ed)) := by
  refine ⟨?_, ?_, ?_⟩
  · intro now db sd ed hdb hz
    have hz' : ¬ (¬ isZeroTime sd = true ∧ ¬ isZeroTime ed = true) := by
      rcases hz with h | h <;> simp [h]
    have hdb' : (if db ≤ 0 then (7 : Int) else db) = 7 := if_pos hdb
    simp [resolveWindow, hz', hdb']
    intro hsd hed
    rcases hz with h | h
    · simp [h] at hsd
    · simp [h] at hed
  · intro now db sd ed hdb hz
    have hz' : ¬ (¬ isZeroTime sd = true ∧ ¬ isZeroTime ed = true) := by
      rcases hz with h | h <;> simp [h]
    have hdb' : (if db ≤ 0 then (7 : Int) else db) = db := if_neg (by omega)
    simp [resolveWindow, hz', hdb']
    intro hsd hed
    rcases hz with h | h
    · simp [h] at hsd
    · simp [h] at hed
  · intro now db sd ed h1 h2
    simp [resolveWindow, h1, h2]

/-- C7 witness: the three cases of the window resolution at concrete inputs. -/
theorem resolveWindow_defaults_witness :
    resolveWindow 20000 ⟨0, goZeroDay, goZeroDay⟩ = (19993, 20000) ∧
    resolveWindow 20000 ⟨3, goZeroDay, 20000⟩ = (19997, 20000) ∧
    resolveWindow 20000 ⟨3, 19000, 20000⟩ = (truncateToDate 19000, truncateToDate 20000) :=
  ⟨resolveWindow_defaults.1 20000 0 goZeroDay goZeroDay (by decide) (Or.inl (by decide)),
    resolveWindow_defaults.2.1 20000 3 goZeroDay 20000 (by decide) (Or.inl (by decide)),
    resolveWindow_defaults.2.2 20000 3 19000 20000 (by decide) (by decide)⟩

/-- C10: a one-sided explicit pair never constrains the window; the DaysBack
behavior (with its defaulting) applies instead. -/
theorem resolveWindow_one_sided_ignored :
    ∀ (now db sd ed : Int),
      (isZeroTime sd ∧ ¬ isZeroTime ed) ∨ (¬ isZeroTime sd ∧ isZeroTime ed) →
      resolveWindow now ⟨db, sd, ed⟩ = (now - (if db ≤ 0 then 7 else db), now) := by
  intro now db sd ed hz
  have : ¬ (¬ isZeroTime sd = true ∧ ¬ isZeroTime ed = true) := by
    rcases hz with ⟨h, _⟩ | ⟨_, h⟩ <;> simp [h]
  simp only [resolveWindow, this, if_false]

/-- C10 witness: EndDate set alone and StartDate set alone, at concrete
inputs, both fall back to the DaysBack window. -/
theorem resolveWindow_one_sided_ignored_witness :
    resolveWindow 20000 ⟨-2, goZeroDay, 19500⟩ = (19993, 20000) ∧
    resolveWindow 20000 ⟨10, 19500, goZeroDay⟩ = (19990, 20000) :=
  ⟨resolveWindow_one_sided_ignored 20000 (-2) goZeroDay 19500 (Or.inl ⟨by decide, by decide⟩),
    resolveWindow_one_sided_ignored 20000 10 19500 goZeroDay (Or.inr ⟨by decide, by decide⟩)⟩

/-- The filtering loop of NormalizeActivities is the inclusive window filter
followed by normalization, in input order. -/
theorem foldl_window_filter (w : Int × Int) :
    ∀ (activities : List Activity) (acc : List NormalizedActivity),
      activities.foldl
        (fun acc activity =>
          let localDate := extractLocalDate activity.StartDateLocal activity.Timezone
          let localDateTruncated := truncateToDate localDate
          if localDateTruncated < w.1 ∨ w.2 < localDateTruncated then acc
          else acc ++ [normalizeActivity activity localDate]) acc
      = acc ++ ((activities.filter fun a =>
            decide (w.1 ≤ truncateToDate (extractLocalDate a.StartDateLocal a.Timezone) ∧
              truncateToDate (extractLocalDate a.StartDateLocal a.Timezone) ≤ w.2)).map
          fun a => normalizeActivity a (extractLocalDate a.StartDateLocal a.Timezone)) := by
  intro activities
  induction activities with
  | nil => intro acc; simp
  | cons a rest ih =>
    intro acc
    by_cases h : truncateToDate (extractLocalDate a.StartDateLocal a.Timezone) < w.1 ∨
        w.2 < truncateToDate (extractLocalDate a.StartDateLocal a.Timezone)
    · have hfilt : ¬ (w.1 ≤ truncateToDate (extractLocalDate a.StartDateLocal a.Timezone) ∧
          truncateToDate (extractLocalDate a.StartDateLocal a.Timezone) ≤ w.2) := by omega
      simp only [List.foldl_cons, List.filter_cons]
      rw [if_pos h]
      simp only [decide_eq_true_eq, hfilt, if_false]
      exact ih acc
    · have hfilt : w.1 ≤ truncateToDate (extractLocalDate a.StartDateLocal a.Timezone) ∧
          truncateToDate (extractLocalDate a.StartDateLocal a.Timezone) ≤ w.2 := by omega
      simp only [List.foldl_cons, List.filter_cons]
      rw [if_neg h]
      simp only [decide_eq_true_eq, hfilt, if_true]
      rw [ih (acc ++ [normalizeActivity a (extractLocalDate a.StartDateLocal a.Timezone)])]
      simp

/-- C1: NormalizeActivities returns exactly the activities whose local
calendar date lies inside the resolved window, both bounds inclusive, in
insertion order. -/
theorem normalizeActivities_window_filter (activities : List Activity)
    (opts : Option NormalizeOptions) (now : Int) :
    NormalizeActivities activities opts now =
      ((activities.filter fun a =>
          decide ((resolveWindow now (opts.getD ⟨7, goZeroDay, goZeroDay⟩)).1 ≤
              truncateToDate (extractLocalDate a.StartDateLocal a.Timezone) ∧
            truncateToDate (extractLocalDate a.StartDateLocal a.Timezone) ≤
              (resolveWindow now (opts.getD ⟨7, goZeroDay, goZeroDay⟩)).2)).map
        fun a => normalizeActivity a (extractLocalDate a.StartDateLocal a.Timezone)) := by
  unfold NormalizeActivities
  exact foldl_window_filter _ activities []

/-! C2: weighted average pace. -/

/-- The accumulation pass of CalculateRunningStats computes the length,
aggregate distance, aggregate moving time and over-10K count of the running
subset. -/
theorem runningStats_foldl (activities : List NormalizedActivity) :
    ∀ acc : RunningAcc,
      activities.foldl runningStatsStep acc =
        ⟨acc.totalRuns + (runsOf activities).length,
          acc.totalDistance + sumDistance (runsOf activities),
          acc.totalMovingTime + sumMovingTime (runsOf activities),
          acc.runsOver10K + ((runsOf activities).filter fun a => 10000 ≤ a.Distance).length⟩ := by
  induction activities with
  | nil => intro acc; simp [runsOf, sumDistance, sumMovingTime]
  | cons a rest ih =>
    intro acc
    rw [List.foldl_cons, ih]
    by_cases h : isRunningActivity a.SportType
    · have hr : runsOf (a :: rest) = a :: runsOf rest := by
        simp [runsOf, List.filter_cons, h]
      rw [hr]
      simp only [runningStatsStep, h, if_true]
      by_cases h10 : (10000 : ℚ) ≤ a.Distance
      · simp [sumDistance, sumMovingTime, List.filter_cons, h10]
        refine ⟨by omega, by ring, by omega, by omega⟩
      · simp [sumDistance, sumMovingTime, List.filter_cons, h10]
        refine ⟨by omega, by ring, by omega⟩
    · have hr : runsOf (a :: rest) = runsOf rest := by
        simp [runsOf, List.filter_cons, h]
      rw [hr]
      simp [runningStatsStep, h]

/-- Distance accumulation is the aggregate distance. -/
theorem foldl_distance (l : List NormalizedActivity) :
    ∀ x : ℚ, l.foldl (fun s activity => s + activity.Distance) x = x + sumDistance l := by
  induction l with
  | nil => intro x; simp [sumDistance]
  | cons a rest ih =>
    intro x
    simp only [List.foldl_cons, ih, sumDistance, List.map_cons, List.sum_cons]
    ring

/-- Moving-time accumulation is the aggregate moving time. -/
theorem foldl_movingTime (l : List NormalizedActivity) :
    ∀ x : Nat, l.foldl (fun s activity => s + activity.MovingTime) x = x + sumMovingTime l := by
  induction l with
  | nil => intro x; simp [sumMovingTime]
  | cons a rest ih =>
    intro x
    simp only [List.foldl_cons, ih, sumMovingTime, List.map_cons, List.sum_cons]
    omega

/-- Example runs of the specification: 5000 m in 1800 s and 10000 m in 3000 s. -/
def exRun1 : NormalizedActivity :=
  normalizeActivity ⟨1, "a", "Run", 0, 0, "", 1800, 1800, 5000, 0, 0, 0⟩ 0

/-- Second example run of the specification. -/
def exRun2 : NormalizedActivity :=
  normalizeActivity ⟨2, "b", "Run", 0, 0, "", 3000, 3000, 10000, 0, 0, 0⟩ 0

/-- C2: the average pace of CalculateRunningStats is the aggregate moving
time over the aggregate distance, scaled to the mile and the kilometer; on
the two example runs it is the weighted value and differs from the format of
the arithmetic mean of the two per-activity paces; the per-bucket pace of
the trend aggregator is derived the same weighted way. -/
theorem runningStats_weighted_pace :
    (∀ activities : List NormalizedActivity,
      0 < (runsOf activities).length → 0 < sumDistance (runsOf activities) →
      (CalculateRunningStats activities).AveragePace =
        formatPace ((sumMovingTime (runsOf activities) : ℚ) /
          sumDistance (runsOf activities) * 1609.34) ∧
      (CalculateRunningStats activities).AveragePaceMinPerKm =
        formatPace ((sumMovingTime (runsOf activities) : ℚ) /
          sumDistance (runsOf activities) * 1000)) ∧
    ((CalculateRunningStats [exRun1, exRun2]).AveragePace =
      formatPace ((1800 + 3000 : ℚ) / (5000 + 10000) * 1609.34)) ∧
    ((CalculateRunningStats [exRun1, exRun2]).AveragePace ≠
      formatPace (((1800 : ℚ) / 5000 + (3000 : ℚ) / 10000) / 2 * 1609.34)) ∧
    (∀ (group : List NormalizedActivity) (dateStr : String),
      0 < group.length → 0 < sumDistance group → 0 < sumMovingTime group →
      (calculatePeriodAverage group dateStr).Pace =
        formatPaceSeconds ((sumMovingTime group : ℚ) / sumDistance group * 1609.34) ∧
      (calculatePeriodAverage group dateStr).PaceMinPerKm =
        formatPaceSeconds ((sumMovingTime group : ℚ) / sumDistance group * 1000)) := by
  have hmain : ∀ activities : List NormalizedActivity,
      0 < (runsOf activities).length → 0 < sumDistance (runsOf activities) →
      (CalculateRunningStats activities).AveragePace =
        formatPace ((sumMovingTime (runsOf activities) : ℚ) /
          sumDistance (runsOf activities) * 1609.34) ∧
      (CalculateRunningStats activities).AveragePaceMinPerKm =
        formatPace ((sumMovingTime (runsOf activities) : ℚ) /
          sumDistance (runsOf activities) * 1000) := by
    intro activities hlen hdist
    unfold CalculateRunningStats
    rw [runningStats_foldl activities ⟨0, 0, 0, 0⟩]
    simp only [Nat.zero_add, zero_add]
    rw [if_pos ⟨hlen, hdist⟩]
    exact ⟨rfl, rfl⟩
  refine ⟨hmain, ?_, ?_, ?_⟩
  · have h := hmain [exRun1, exRun2] (by decide) (by norm_num [sumDistance, runsOf, exRun1,
      exRun2, normalizeActivity, isRunningActivity])
    rw [h.1]
    have hsum : sumDistance (runsOf [exRun1, exRun2]) = 5000 + 10000 := by
      norm_num [sumDistance, runsOf, exRun1, exRun2, normalizeActivity, isRunningActivity]
    have htime : (sumMovingTime (runsOf [exRun1, exRun2]) : ℚ) = 1800 + 3000 := by
      norm_num [sumMovingTime, runsOf, exRun1, exRun2, normalizeActivity, isRunningActivity]
    rw [hsum, htime]
  · have h := hmain [exRun1, exRun2] (by decide) (by norm_num [sumDistance, runsOf, exRun1,
      exRun2, normalizeActivity, isRunningActivity])
    rw [h.1]
    have hsum : sumDistance (runsOf [exRun1, exRun2]) = 15000 := by
      norm_num [sumDistance, runsOf, exRun1, exRun2, normalizeActivity, isRunningActivity]
    have htime : (sumMovingTime (runsOf [exRun1, exRun2]) : ℚ) = 4800 := by
      norm_num [sumMovingTime, runsOf, exRun1, exRun2, normalizeActivity, isRunningActivity]
    rw [hsum, htime]
    have hw : ((4800 : ℚ) / 15000 * 1609.34) = 2574944 / 5000 := by norm_num
    have hm : (((1800 : ℚ) / 5000 + (3000 : ℚ) / 10000) / 2 * 1609.34) = 5310822 / 10000 := by
      norm_num
    rw [hw, hm]
    have h1 : formatPace ((2574944 : ℚ) / 5000) = "8:35" := by
      have hg : goRound ((2574944 : ℚ) / 5000) = 515 := by
        unfold goRound
        rw [if_neg (by norm_num)]
        norm_num
      simp [formatPace, hg, pad2]
      decide
    have h2 : formatPace ((5310822 : ℚ) / 10000) = "8:51" := by
      have hg : goRound ((5310822 : ℚ) / 10000) = 531 := by
        unfold goRound
        rw [if_neg (by norm_num)]
        norm_num
      simp [formatPace, hg, pad2]
      decide
    rw [h1, h2]
    decide
  · intro group dateStr hlen hdist htime
    unfold calculatePeriodAverage
    rw [foldl_distance, foldl_movingTime]
    simp only [zero_add, Nat.zero_add]
    rw [if_pos ⟨hlen, hdist, htime⟩]
    exact ⟨rfl, rfl⟩

/-- C2 witness: singleton input discharging the hypotheses of both universal
parts. -/
theorem runningStats_weighted_pace_witness :
    ((CalculateRunningStats [exRun1]).AveragePace =
      formatPace ((sumMovingTime (runsOf [exRun1]) : ℚ) /
        sumDistance (runsOf [exRun1]) * 1609.34) ∧
    (CalculateRunningStats [exRun1]).AveragePaceMinPerKm =
      formatPace ((sumMovingTime (runsOf [exRun1]) : ℚ) /
        sumDistance (runsOf [exRun1]) * 1000)) ∧
    ((calculatePeriodAverage [exRun1] ("2024-01-01")).Pace =
      formatPaceSeconds ((sumMovingTime [exRun1] : ℚ) / sumDistance [exRun1] * 1609.34) ∧
    (calculatePeriodAverage [exRun1] ("2024-01-01")).PaceMinPerKm =
      formatPaceSeconds ((sumMovingTime [exRun1] : ℚ) / sumDistance [exRun1] * 1000)) :=
  ⟨runningStats_weighted_pace.1 [exRun1] (by decide)
      (by norm_num [sumDistance, runsOf, exRun1, normalizeActivity, isRunningActivity]),
    runningStats_weighted_pace.2.2.2 [exRun1] ("2024-01-01") (by decide)
      (by norm_num [sumDistance, exRun1, normalizeActivity])
      (by norm_num [sumMovingTime, exRun1, normalizeActivity])⟩

/-! C3: personal records. -/

/-- Mile candidate band of the specification: distance within 200 m of
1609.34 m, both ends inclusive. -/
def qualifiesMile (a : NormalizedActivity) : Bool :=
  decide (1609.34 - 200 ≤ a.Distance ∧ a.Distance ≤ 1609.34 + 200)

/-- Ten-kilometer candidate band of the specification: distance within 500 m
of 10000 m, both ends inclusive. -/
def qualifies10K (a : NormalizedActivity) : Bool :=
  decide (10000 - 500 ≤ a.Distance ∧ a.Distance ≤ 10000 + 500)

/-- Specification-side incumbent update for a minimum-time category: replace
only on strictly smaller moving time, keeping the first-seen on ties. -/
def minStepByTime (b : Option NormalizedActivity) (a : NormalizedActivity) :
    Option NormalizedActivity :=
  match b with
  | none => some a
  | some p => if a.MovingTime < p.MovingTime then some a else some p

/-- Specification-side first activity with minimum moving time. -/
def firstMinByTime (l : List NormalizedActivity) : Option NormalizedActivity :=
  l.foldl minStepByTime none

/-- Specification-side incumbent update for a maximum category: replace only
on strictly larger value, keeping the first-seen on ties. -/
def maxStepBy (f : NormalizedActivity → ℚ) (b : Option NormalizedActivity)
    (a : NormalizedActivity) : Option NormalizedActivity :=
  match b with
  | none => some a
  | some p => if f p < f a then some a else some p

/-- Specification-side first activity with maximum value of f. -/
def firstMaxBy (f : NormalizedActivity → ℚ) (l : List NormalizedActivity) :
    Option NormalizedActivity :=
  l.foldl (maxStepBy f) none

/-- A minimum-category accumulator pair (sentinel time, record) represents an
incumbent candidate. -/
def repMin (p : Int × Option RunRecord) (b : Option NormalizedActivity) : Prop :=
  (b = none ∧ p.1 = -1 ∧ p.2 = none) ∨
    (∃ c, b = some c ∧ p.1 = (c.MovingTime : Int) ∧ p.2 = some (createRunRecord c))

/-- A maximum-category accumulator pair (sentinel value, record) represents an
incumbent candidate. -/
def repMax (f : NormalizedActivity → ℚ) (p : ℚ × Option RunRecord)
    (b : Option NormalizedActivity) : Prop :=
  (b = none ∧ p.1 = -1 ∧ p.2 = none) ∨
    (∃ c, b = some c ∧ p.1 = f c ∧ p.2 = some (createRunRecord c))

theorem step_skip (acc : PRAcc) (a : NormalizedActivity)
    (h : ¬ isRunningActivity a.SportType = true) : personalRecordsStep acc a = acc := by
  simp [personalRecordsStep, h]

theorem step_fastestMile (acc : PRAcc) (a : NormalizedActivity)
    (h : isRunningActivity a.SportType = true) :
    ((personalRecordsStep acc a).fastestMileTime, (personalRecordsStep acc a).prs.FastestMile) =
      if 1609.34 - 200 ≤ a.Distance ∧ a.Distance ≤ 1609.34 + 200 then
        if acc.fastestMileTime = -1 ∨ (a.MovingTime : Int) < acc.fastestMileTime then
          ((a.MovingTime : Int), some (createRunRecord a))
        else (acc.fastestMileTime, acc.prs.FastestMile)
      else (acc.fastestMileTime, acc.prs.FastestMile) := by
  simp only [personalRecordsStep, h, if_true]
  split_ifs <;> rfl

theorem step_fastest10K (acc : PRAcc) (a : NormalizedActivity)
    (h : isRunningActivity a.SportType = true) :
    ((personalRecordsStep acc a).fastest10KTime, (personalRecordsStep acc a).prs.Fastest10K) =
      if 10000 - 500 ≤ a.Distance ∧ a.Distance ≤ 10000 + 500 then
        if acc.fastest10KTime = -1 ∨ (a.MovingTime : Int) < acc.fastest10KTime then
          ((a.MovingTime : Int), some (createRunRecord a))
        else (acc.fastest10KTime, acc.prs.Fastest10K)
      else (acc.fastest10KTime, acc.prs.Fastest10K) := by
  simp only [personalRecordsStep, h, if_true]
  split_ifs <;> rfl

theorem step_longest (acc : PRAcc) (a : NormalizedActivity)
    (h : isRunningActivity a.SportType = true) :
    ((personalRecordsStep acc a).longestDistance, (personalRecordsStep acc a).prs.LongestRun) =
      if acc.longestDistance < a.Distance then (a.Distance, some (createRunRecord a))
      else (acc.longestDistance, acc.prs.LongestRun) := by
  simp only [personalRecordsStep, h, if_true]
  split_ifs <;> rfl

theorem step_mostElevation (acc : PRAcc) (a : NormalizedActivity)
    (h : isRunningActivity a.SportType = true) :
    ((personalRecordsStep acc a).mostElevation, (personalRecordsStep acc a).prs.MostElevation) =
      if acc.mostElevation < a.TotalElevationGain then
        (a.TotalElevationGain, some (createRunRecord a))
      else (acc.mostElevation, acc.prs.MostElevation) := by
  simp only [personalRecordsStep, h, if_true]
  split_ifs <;> rfl

theorem repMin_step (t : Int) (r : Option RunRecord) (b : Option NormalizedActivity)
    (a : NormalizedActivity) (hb : repMin (t, r) b) :
    repMin (if t = -1 ∨ (a.MovingTime : Int) < t then ((a.MovingTime : Int),
      some (createRunRecord a)) else (t, r)) (minStepByTime b a) := by
  rcases hb with ⟨hb, ht, hr⟩ | ⟨c, hb, ht, hr⟩
  · subst hb
    simp only at ht hr
    subst ht hr
    rw [if_pos (Or.inl rfl)]
    exact Or.inr ⟨a, rfl, rfl, rfl⟩
  · subst hb
    simp only at ht hr
    subst ht hr
    by_cases hlt : a.MovingTime < c.MovingTime
    · rw [if_pos (Or.inr (by exact_mod_cast hlt))]
      simp only [minStepByTime, hlt, if_pos]
      exact Or.inr ⟨a, rfl, rfl, rfl⟩
    · rw [if_neg (by push_neg; constructor <;> omega)]
      simp only [minStepByTime, hlt, if_neg]
      exact Or.inr ⟨c, rfl, rfl, rfl⟩

theorem repMax_step (f : NormalizedActivity → ℚ) (v : ℚ) (r : Option RunRecord)
    (b : Option NormalizedActivity) (a : NormalizedActivity) (hb : repMax f (v, r) b)
    (hfa : 0 ≤ f a) :
    repMax f (if v < f a then (f a, some (createRunRecord a)) else (v, r))
      (maxStepBy f b a) := by
  rcases hb with ⟨hb, hv, hr⟩ | ⟨c, hb, hv, hr⟩
  · subst hb
    simp only at hv hr
    subst hv hr
    rw [if_pos (by linarith)]
    exact Or.inr ⟨a, rfl, rfl, rfl⟩
  · subst hb
    simp only at hv hr
    subst hv hr
    by_cases hlt : f c < f a
    · rw [if_pos hlt]
      simp only [maxStepBy, hlt, if_pos]
      exact Or.inr ⟨a, rfl, rfl, rfl⟩
    · rw [if_neg hlt]
      simp only [maxStepBy, hlt, if_neg]
      exact Or.inr ⟨c, rfl, rfl, rfl⟩

/-- The record pair of a represented accumulator is the image of its
incumbent. -/
theorem repMin_map (p : Int × Option RunRecord) (b : Option NormalizedActivity)
    (h : repMin p b) : p.2 = Option.map createRunRecord b := by
  rcases h with ⟨hb, _, hr⟩ | ⟨c, hb, _, hr⟩ <;> subst hb <;> simp [hr]

/-- The record pair of a represented maximum accumulator is the image of its
incumbent. -/
theorem repMax_map (f : NormalizedActivity → ℚ) (p : ℚ × Option RunRecord)
    (b : Option NormalizedActivity) (h : repMax f p b) :
    p.2 = Option.map createRunRecord b := by
  rcases h with ⟨hb, _, hr⟩ | ⟨c, hb, _, hr⟩ <;> subst hb <;> simp [hr]

/-- The pass of CalculatePersonalRecords simultaneously tracks, for each of
the four categories, the first-seen strict best over its candidate list. -/
theorem prFold_spec (activities : List NormalizedActivity)
    (h : ∀ a ∈ activities, 0 ≤ a.Distance ∧ 0 ≤ a.TotalElevationGain) :
    ∀ (acc : PRAcc) (bm b10 bl be : Option NormalizedActivity),
      repMin (acc.fastestMileTime, acc.prs.FastestMile) bm →
      repMin (acc.fastest10KTime, acc.prs.Fastest10K) b10 →
      repMax (fun x => x.Distance) (acc.longestDistance, acc.prs.LongestRun) bl →
      repMax (fun x => x.TotalElevationGain) (acc.mostElevation, acc.prs.MostElevation) be →
      repMin ((activities.foldl personalRecordsStep acc).fastestMileTime,
          (activities.foldl personalRecordsStep acc).prs.FastestMile)
        (((runsOf activities).filter qualifiesMile).foldl minStepByTime bm) ∧
      repMin ((activities.foldl personalRecordsStep acc).fastest10KTime,
          (activities.foldl personalRecordsStep acc).prs.Fastest10K)
        (((runsOf activities).filter qualifies10K).foldl minStepByTime b10) ∧
      repMax (fun x => x.Distance) ((activities.foldl personalRecordsStep acc).longestDistance,
          (activities.foldl personalRecordsStep acc).prs.LongestRun)
        ((runsOf activities).foldl (maxStepBy fun x => x.Distance) bl) ∧
      repMax (fun x => x.TotalElevationGain)
        ((activities.foldl personalRecordsStep acc).mostElevation,
          (activities.foldl personalRecordsStep acc).prs.MostElevation)
        ((runsOf activities).foldl (maxStepBy fun x => x.TotalElevationGain) be) := by
  induction activities with
  | nil =>
    intro acc bm b10 bl be h1 h2 h3 h4
    simpa [runsOf] using ⟨h1, h2, h3, h4⟩
  | cons a rest ih =>
    have ha := h a (List.mem_cons_self a rest)
    have hrest : ∀ x ∈ rest, 0 ≤ x.Distance ∧ 0 ≤ x.TotalElevationGain :=
      fun x hx => h x (List.mem_cons_of_mem a hx)
    intro acc bm b10 bl be h1 h2 h3 h4
    by_cases hrun : isRunningActivity a.SportType = true
    · have hr : runsOf (a :: rest) = a :: runsOf rest := by
        simp [runsOf, List.filter_cons, hrun]
      rw [List.foldl_cons, hr, List.filter_cons, List.filter_cons, List.foldl_cons,
        List.foldl_cons]
      have hm : repMin ((personalRecordsStep acc a).fastestMileTime,
          (personalRecordsStep acc a).prs.FastestMile)
          (if qualifiesMile a = true then minStepByTime bm a else bm) := by
        rw [step_fastestMile acc a hrun]
        by_cases hq : qualifiesMile a = true
        · rw [if_pos hq, if_pos (of_decide_eq_true hq)]
          exact repMin_step _ _ _ _ h1
        · rw [if_neg hq, if_neg (fun hband => hq (decide_eq_true hband))]
          exact h1
      have h10 : repMin ((personalRecordsStep acc a).fastest10KTime,
          (personalRecordsStep acc a).prs.Fastest10K)
          (if qualifies10K a = true then minStepByTime b10 a else b10) := by
        rw [step_fastest10K acc a hrun]
        by_cases hq : qualifies10K a = true
        · rw [if_pos hq, if_pos (of_decide_eq_true hq)]
          exact repMin_step _ _ _ _ h2
        · rw [if_neg hq, if_neg (fun hband => hq (decide_eq_true hband))]
          exact h2
      have hl : repMax (fun x => x.Distance)
          ((personalRecordsStep acc a).longestDistance,
            (personalRecordsStep acc a).prs.LongestRun) (maxStepBy (fun x => x.Distance) bl a) := by
        rw [step_longest acc a hrun]
        exact repMax_step _ _ _ _ _ h3 ha.1
      have he : repMax (fun x => x.TotalElevationGain)
          ((personalRecordsStep acc a).mostElevation,
            (personalRecordsStep acc a).prs.MostElevation)
          (maxStepBy (fun x => x.TotalElevationGain) be a) := by
        rw [step_mostElevation acc a hrun]
        exact repMax_step _ _ _ _ _ h4 ha.2
      by_cases hq : qualifiesMile a = true <;> by_cases hq10 : qualifies10K a = true
      · rw [if_pos hq] at hm ⊢
        rw [if_pos hq10] at h10 ⊢
        rw [List.foldl_cons, List.foldl_cons]
        exact ih hrest (personalRecordsStep acc a) _ _ _ _ hm h10 hl he
      · rw [if_pos hq] at hm ⊢
        rw [if_neg hq10] at h10 ⊢
        rw [List.foldl_cons]
        exact ih hrest (personalRecordsStep acc a) _ _ _ _ hm h10 hl he
      · rw [if_neg hq] at hm ⊢
        rw [if_pos hq10] at h10 ⊢
        rw [List.foldl_cons]
        exact ih hrest (personalRecordsStep acc a) _ _ _ _ hm h10 hl he
      · rw [if_neg hq] at hm ⊢
        rw [if_neg hq10] at h10 ⊢
        exact ih hrest (personalRecordsStep acc a) _ _ _ _ hm h10 hl he
    · have hr : runsOf (a :: rest) = runsOf rest := by
        simp [runsOf, List.filter_cons, hrun]
      rw [List.foldl_cons, step_skip acc a hrun, hr]
      exact ih hrest acc _ _ _ _ h1 h2 h3 h4

/-- Example mile-band candidate of the specification: 1700 m in 400 s. -/
def mileRun1700 : NormalizedActivity :=
  normalizeActivity ⟨3, "c", "Run", 0, 0, "", 400, 400, 1700, 0, 0, 0⟩ 0

/-- Example non-candidate of the specification: a 1900 m run. -/
def run1900 : NormalizedActivity :=
  normalizeActivity ⟨4, "d", "Run", 0, 0, "", 500, 500, 1900, 0, 0, 0⟩ 0

/-- C3: each personal-record category is the first-seen strict best over its
candidate list (the tolerance-banded running activities for the two fastest
categories, all running activities for longest run and most elevation), a
category without candidates is none, and the 1700 m example is a mile
candidate while the 1900 m example is not. -/
theorem personalRecords_spec (activities : List NormalizedActivity)
    (hpos : ∀ a ∈ activities, 0 ≤ a.Distance ∧ 0 ≤ a.TotalElevationGain) :
    (CalculatePersonalRecords activities).FastestMile =
      Option.map createRunRecord (firstMinByTime ((runsOf activities).filter qualifiesMile)) ∧
    (CalculatePersonalRecords activities).Fastest10K =
      Option.map createRunRecord (firstMinByTime ((runsOf activities).filter qualifies10K)) ∧
    (CalculatePersonalRecords activities).LongestRun =
      Option.map createRunRecord (firstMaxBy (fun x => x.Distance) (runsOf activities)) ∧
    (CalculatePersonalRecords activities).MostElevation =
      Option.map createRunRecord
        (firstMaxBy (fun x => x.TotalElevationGain) (runsOf activities)) ∧
    qualifiesMile mileRun1700 = true ∧ qualifiesMile run1900 = false := by
  obtain ⟨h1, h2, h3, h4⟩ := prFold_spec activities hpos
    ⟨-1, -1, -1, -1, ⟨none, none, none, none⟩⟩ none none none none
    (Or.inl ⟨rfl, rfl, rfl⟩) (Or.inl ⟨rfl, rfl, rfl⟩)
    (Or.inl ⟨rfl, rfl, rfl⟩) (Or.inl ⟨rfl, rfl, rfl⟩)
  refine ⟨repMin_map _ _ h1, repMin_map _ _ h2, repMax_map _ _ _ h3, repMax_map _ _ _ h4,
    ?_, ?_⟩
  · simp only [qualifiesMile, mileRun1700, normalizeActivity, decide_eq_true_eq]
    norm_num
  · simp only [qualifiesMile, run1900, normalizeActivity, decide_eq_false_iff_not]
    norm_num

/-- C3 witness: the record characterization at a concrete three-activity
input with the nonnegativity hypothesis discharged by evaluation. -/
theorem personalRecords_spec_witness :
    (CalculatePersonalRecords [mileRun1700, run1900, exRun2]).FastestMile =
      Option.map createRunRecord
        (firstMinByTime ((runsOf [mileRun1700, run1900, exRun2]).filter qualifiesMile)) ∧
    (CalculatePersonalRecords [mileRun1700, run1900, exRun2]).Fastest10K =
      Option.map createRunRecord
        (firstMinByTime ((runsOf [mileRun1700, run1900, exRun2]).filter qualifies10K)) ∧
    (CalculatePersonalRecords [mileRun1700, run1900, exRun2]).LongestRun =
      Option.map createRunRecord
        (firstMaxBy (fun x => x.Distance) (runsOf [mileRun1700, run1900, exRun2])) ∧
    (CalculatePersonalRecords [mileRun1700, run1900, exRun2]).MostElevation =
      Option.map createRunRecord
        (firstMaxBy (fun x => x.TotalElevationGain) (runsOf [mileRun1700, run1900, exRun2])) ∧
    qualifiesMile mileRun1700 = true ∧ qualifiesMile run1900 = false :=
  personalRecords_spec [mileRun1700, run1900, exRun2] (by decide)

/-! C8: empty-input safety and the division guards. -/

/-- A running activity of positive distance with zero moving time. -/
def zeroTimeRun : NormalizedActivity :=
  normalizeActivity ⟨5, "e", "Run", 0, 0, "", 0, 0, 5000, 0, 0, 0⟩ 0

/-- A running activity of zero distance with positive moving time. -/
def zeroDistRun : NormalizedActivity :=
  normalizeActivity ⟨6, "f", "Run", 0, 0, "", 100, 100, 0, 0, 0, 0⟩ 0

/-- C8 counterexample: with one run of positive distance and zero moving
time, CalculateRunningStats formats the pace as 0:00 instead of leaving the
field empty — its guard checks only the run count and the total distance,
not the total moving time. -/
theorem runningStats_zero_time_counterexample :
    (CalculateRunningStats [zeroTimeRun]).AveragePace = "0:00" ∧
      ("0:00" : String) ≠ "" := by
  refine ⟨?_, by decide⟩
  unfold CalculateRunningStats
  rw [runningStats_foldl [zeroTimeRun] ⟨0, 0, 0, 0⟩]
  have hsum : sumDistance (runsOf [zeroTimeRun]) = 5000 := by
    norm_num [sumDistance, runsOf, zeroTimeRun, normalizeActivity, isRunningActivity]
  have htime : sumMovingTime (runsOf [zeroTimeRun]) = 0 := by decide
  have hlen : (runsOf [zeroTimeRun]).length = 1 := by decide
  simp only [hsum, htime, hlen]
  norm_num
  have hz : goRound 0 = 0 := by
    unfold goRound
    rw [if_neg (by norm_num)]
    norm_num
  simp [formatPace, hz, pad2]
  decide

/-- C8 as amended: all five operations return their empty shapes on the
empty collection; the pace fields stay empty when the aggregate distance is
zero (CalculateRunningStats) and when the distance or the moving time is
zero (record and trend paces); with positive distance but zero moving time
CalculateRunningStats formats the zero pace as 0:00 — no division by zero
occurs in any case. -/
theorem empty_and_zero_guards :
    (∀ (opts : Option NormalizeOptions) (now : Int), NormalizeActivities [] opts now = []) ∧
    CalculateRunningStats [] = ⟨0, 0, 0, 0, "", ""⟩ ∧
    CalculatePersonalRecords [] = ⟨none, none, none, none⟩ ∧
    (∀ b : Bool, GenerateDistanceHistogram [] b = ⟨[]⟩) ∧
    (∀ (period : String) (ro : Bool), CalculateTrends [] period ro = ⟨period, []⟩) ∧
    (∀ activities : List NormalizedActivity, sumDistance (runsOf activities) = 0 →
      (CalculateRunningStats activities).AveragePace = "" ∧
      (CalculateRunningStats activities).AveragePaceMinPerKm = "") ∧
    (∀ a : NormalizedActivity, a.Distance = 0 ∨ a.MovingTime = 0 →
      (createRunRecord a).Pace = "" ∧ (createRunRecord a).PaceMinPerKm = "") ∧
    (∀ (group : List NormalizedActivity) (dateStr : String),
      sumDistance group = 0 ∨ sumMovingTime group = 0 →
      (calculatePeriodAverage group dateStr).Pace = "" ∧
      (calculatePeriodAverage group dateStr).PaceMinPerKm = "") := by
  refine ⟨fun opts now => rfl, ?_, rfl, fun b => rfl, fun period ro => by cases ro <;> rfl,
    ?_, ?_, ?_⟩
  · simp [CalculateRunningStats]
  · intro activities h
    unfold CalculateRunningStats
    rw [runningStats_foldl activities ⟨0, 0, 0, 0⟩]
    rw [if_neg]
    · exact ⟨rfl, rfl⟩
    · rintro ⟨-, hd⟩
      rw [h] at hd
      simp at hd
  · intro a h
    unfold createRunRecord
    rw [if_neg]
    · exact ⟨rfl, rfl⟩
    · rintro ⟨hd, ht⟩
      rcases h with h | h
      · rw [h] at hd; exact absurd hd (by norm_num)
      · omega
  · intro group dateStr h
    unfold calculatePeriodAverage
    rw [foldl_distance, foldl_movingTime]
    rw [if_neg]
    · exact ⟨rfl, rfl⟩
    · rintro ⟨-, hd, ht⟩
      rcases h with h | h
      · rw [zero_add, h] at hd
        exact absurd hd (by norm_num)
      · omega

/-- C8 witness: the guarded parts at concrete inputs with their hypotheses
discharged by evaluation. -/
theorem empty_and_zero_guards_witness :
    ((CalculateRunningStats [zeroDistRun]).AveragePace = "" ∧
      (CalculateRunningStats [zeroDistRun]).AveragePaceMinPerKm = "") ∧
    ((createRunRecord zeroTimeRun).Pace = "" ∧
      (createRunRecord zeroTimeRun).PaceMinPerKm = "") ∧
    ((calculatePeriodAverage [zeroTimeRun] ("2024-01-01")).Pace = "" ∧
      (calculatePeriodAverage [zeroTimeRun] ("2024-01-01")).PaceMinPerKm = "") :=
  ⟨empty_and_zero_guards.2.2.2.2.2.1 [zeroDistRun]
      (by norm_num [sumDistance, runsOf, zeroDistRun, normalizeActivity, isRunningActivity]),
    empty_and_zero_guards.2.2.2.2.2.2.1 zeroTimeRun (Or.inr (by decide)),
    empty_and_zero_guards.2.2.2.2.2.2.2 [zeroTimeRun] ("2024-01-01")
      (Or.inr (by decide))⟩

/-! C4: the daily moving average. -/

/-- Specification-side smoothed distance at index i: the average of the
distances at the indices of the inclusive window from i-1 to i+1, clamped to
the series, counting only entries with positive distance in the denominator;
when the window has no positive entry the original distance is kept. -/
def specSmoothDistance (ds : List ℚ) (i : Nat) : ℚ :=
  let lo := i - 1
  let hi := min (i + 1) (ds.length - 1)
  let js := List.range' lo (hi + 1 - lo)
  let sum := (js.map fun j => ds.getD j 0).sum
  let cnt := (js.filter fun j => 0 < ds.getD j 0).length
  if 0 < cnt then sum / (cnt : ℚ) else ds.getD i 0

/-- Indexing a list by its range of positions is mapping over it. -/
theorem range_map_getD (l : List α) (d : α) (f : α → β) :
    (List.range l.length).map (fun i => f (l.getD i d)) = l.map f := by
  induction l with
  | nil => simp
  | cons x xs ih =>
    rw [List.length_cons, List.range_succ_eq_map]
    simp only [List.map_cons, List.map_map]
    refine congrArg₂ _ rfl ?_
    exact ih

/-- Reading a mapped list with default zero is reading the underlying list. -/
theorem getD_map_distance (points : List TrendDataPoint) (j : Nat) :
    (points.map fun p => p.Distance).getD j 0 = (points.getD j emptyPoint).Distance := by
  simp only [List.getD_eq_getElem?_getD, List.getElem?_map]
  cases points[j]? with
  | none => rfl
  | some x => rfl

/-- The conditional update of the smoothing body keeps the date, pace and
count fields. -/
theorem quad_ite (p : TrendDataPoint) (c : Prop) [Decidable c] (v : ℚ) :
    (fun q : TrendDataPoint => (q.Date, q.Pace, q.PaceMinPerKm, q.Count))
      (if c then { p with Distance := v, DistanceMiles := v / 1609.34 } else p) =
      (p.Date, p.Pace, p.PaceMinPerKm, p.Count) := by
  split_ifs <;> rfl

/-- C4 as amended: the 3-point moving average is a no-op on any series of at
most 3 points (the window size), and on longer series every distance becomes
the specification windowed average while the date, pace and count fields are
copied unchanged. -/
theorem movingAverage_characterization :
    (∀ points : List TrendDataPoint, points.length ≤ 3 →
      applyMovingAverage points 3 = points) ∧
    (∀ points : List TrendDataPoint, 3 < points.length →
      ((applyMovingAverage points 3).map fun p => p.Distance) =
        ((List.range points.length).map fun i =>
          specSmoothDistance (points.map fun p => p.Distance) i) ∧
      ((applyMovingAverage points 3).map fun p => (p.Date, p.Pace, p.PaceMinPerKm, p.Count)) =
        (points.map fun p => (p.Date, p.Pace, p.PaceMinPerKm, p.Count))) := by
  constructor
  · intro points h
    unfold applyMovingAverage
    rw [if_pos h]
  · intro points h
    unfold applyMovingAverage
    rw [if_neg (by omega)]
    constructor
    · rw [List.map_map]
      refine List.map_congr_left ?_
      intro i hi
      have hi' : i < points.length := List.mem_range.mp hi
      have hjs : min (i + 1) ((points.map fun p => p.Distance).length - 1) + 1 - (i - 1) =
          min (i + 1 + 1) points.length - (i - 1) := by
        rw [List.length_map]
        omega
      simp only [Function.comp, specSmoothDistance, getD_map_distance, List.length_map,
        apply_ite (fun p : TrendDataPoint => p.Distance)]
      rw [show min (i + 1) (points.length - 1) + 1 - (i - 1) =
          min (i + 1 + 1) points.length - (i - 1) from by omega]
    · rw [List.map_map]
      refine Eq.trans (List.map_congr_left ?_) (range_map_getD points emptyPoint
        fun p => (p.Date, p.Pace, p.PaceMinPerKm, p.Count))
      intro i hi
      exact quad_ite (points.getD i emptyPoint) _ _

/-- A four-point daily series used to exercise the smoothing. -/
def wPoints : List TrendDataPoint :=
  [⟨"2024-01-01", 1000, 0, "", "", 1⟩, ⟨"2024-01-02", 2000, 0, "", "", 1⟩,
    ⟨"2024-01-03", 3000, 0, "", "", 1⟩, ⟨"2024-01-04", 4000, 0, "", "", 1⟩]

/-- C4 witness: the no-op part at a two-point series and the averaging part
at the four-point series, hypotheses discharged by evaluation. -/
theorem movingAverage_characterization_witness :
    (applyMovingAverage [⟨"2024-01-01", 1000, 0, "", "", 1⟩,
        ⟨"2024-01-02", 2000, 0, "", "", 1⟩] 3 =
      [⟨"2024-01-01", 1000, 0, "", "", 1⟩, ⟨"2024-01-02", 2000, 0, "", "", 1⟩]) ∧
    (((applyMovingAverage wPoints 3).map fun p => p.Distance) =
        ((List.range wPoints.length).map fun i =>
          specSmoothDistance (wPoints.map fun p => p.Distance) i) ∧
      ((applyMovingAverage wPoints 3).map fun p => (p.Date, p.Pace, p.PaceMinPerKm, p.Count)) =
        (wPoints.map fun p => (p.Date, p.Pace, p.PaceMinPerKm, p.Count))) :=
  ⟨movingAverage_characterization.1 _ (by decide),
    movingAverage_characterization.2 wPoints (by decide)⟩

/-- Daily example activity of 1000 m on 2024-01-01 (day number 19723); the
derived unit fields are written as literals so that they play no role. -/
def trendRun1 : NormalizedActivity :=
  { toActivity := ⟨7, "t1", "Run", 19723, 19723, "", 600, 600, 1000, 0, 0, 0⟩
    LocalDate := 19723, LocalDateStr := "2024-01-01", DistanceKm := 1, DistanceMiles := 0
    MovingTimeHours := 0, MovingTimeFormatted := "10m", ElevationGainMeters := 0
    ElevationGainFeet := 0, AverageSpeedKmh := 0, AverageSpeedMph := 0, MaxSpeedKmh := 0
    MaxSpeedMph := 0 }

/-- Daily example activity of 2000 m on 2024-01-02. -/
def trendRun2 : NormalizedActivity :=
  { toActivity := ⟨8, "t2", "Run", 19724, 19724, "", 600, 600, 2000, 0, 0, 0⟩
    LocalDate := 19724, LocalDateStr := "2024-01-02", DistanceKm := 2, DistanceMiles := 0
    MovingTimeHours := 0, MovingTimeFormatted := "10m", ElevationGainMeters := 0
    ElevationGainFeet := 0, AverageSpeedKmh := 0, AverageSpeedMph := 0, MaxSpeedKmh := 0
    MaxSpeedMph := 0 }

/-- Daily example activity of 3000 m on 2024-01-03. -/
def trendRun3 : NormalizedActivity :=
  { toActivity := ⟨9, "t3", "Run", 19725, 19725, "", 600, 600, 3000, 0, 0, 0⟩
    LocalDate := 19725, LocalDateStr := "2024-01-03", DistanceKm := 3, DistanceMiles := 0
    MovingTimeHours := 0, MovingTimeFormatted := "10m", ElevationGainMeters := 0
    ElevationGainFeet := 0, AverageSpeedKmh := 0, AverageSpeedMph := 0, MaxSpeedKmh := 0
    MaxSpeedMph := 0 }

/-- The date of a bucket point is its key. -/
theorem periodAverage_Date (g : List NormalizedActivity) (d : String) :
    (calculatePeriodAverage g d).Date = d := by
  unfold calculatePeriodAverage
  dsimp only
  split_ifs <;> rfl

/-- The distance of a bucket point is the aggregate distance of its group. -/
theorem periodAverage_Distance (g : List NormalizedActivity) (d : String) :
    (calculatePeriodAverage g d).Distance = sumDistance g := by
  unfold calculatePeriodAverage
  rw [foldl_distance]
  dsimp only
  split_ifs <;> simp

/-- C4 counterexample: on three consecutive daily points with distances 1000,
2000 and 3000 the trend series keeps the distances unchanged — the claimed
boundary averages 1500 and 2500 do not appear, because applyMovingAverage
returns any series of at most window many points untouched. -/
theorem trends_three_point_unsmoothed :
    ((CalculateTrends [trendRun1, trendRun2, trendRun3] ("daily") false).Points.map
      fun p => p.Distance) = [1000, 2000, 3000] ∧
    ¬ (((CalculateTrends [trendRun1, trendRun2, trendRun3] ("daily") false).Points.map
      fun p => p.Distance) = [1500, 2000, 2500]) := by
  have hg : groupByPeriod [trendRun1, trendRun2, trendRun3] ("daily") =
      [("2024-01-01", [trendRun1]), ("2024-01-02", [trendRun2]),
        ("2024-01-03", [trendRun3])] := by decide
  have hmain : ((CalculateTrends [trendRun1, trendRun2, trendRun3] ("daily") false).Points.map
      fun p => p.Distance) = [1000, 2000, 3000] := by
    unfold CalculateTrends
    rw [show (if (false : Bool) then
        ([trendRun1, trendRun2, trendRun3].filter fun activity =>
          activity.SportType = "Run" ∨ activity.SportType = "VirtualRun" ∨
            activity.SportType = "TrailRun")
        else [trendRun1, trendRun2, trendRun3]) = [trendRun1, trendRun2, trendRun3] from rfl]
    rw [if_neg (by decide)]
    rw [hg]
    simp only [List.map_cons, List.map_nil]
    have hsort : sortTrendPoints [calculatePeriodAverage [trendRun1] ("2024-01-01"),
        calculatePeriodAverage [trendRun2] ("2024-01-02"),
        calculatePeriodAverage [trendRun3] ("2024-01-03")] =
        [calculatePeriodAverage [trendRun1] ("2024-01-01"),
          calculatePeriodAverage [trendRun2] ("2024-01-02"),
          calculatePeriodAverage [trendRun3] ("2024-01-03")] := by
      have c1 : strLtb ("2024-01-02") ("2024-01-01") = false := by decide
      have c2 : strLtb ("2024-01-03") ("2024-01-01") = false := by decide
      have c3 : strLtb ("2024-01-03") ("2024-01-02") = false := by decide
      simp [sortTrendPoints, sortTrendPointsGo, sortPass, periodAverage_Date, c1, c2, c3]
    rw [hsort]
    rw [if_pos (by constructor <;> decide)]
    unfold applyMovingAverage
    rw [if_pos (by decide)]
    simp only [List.map_cons, List.map_nil, periodAverage_Distance]
    norm_num [sumDistance, trendRun1, trendRun2, trendRun3]
  refine ⟨hmain, ?_⟩
  intro hcontra
  rw [hmain] at hcontra
  have : (1000 : ℚ) = 1500 := by
    injection hcontra
  norm_num at this

/-! C6: grouping keys and ordering. -/

theorem strLtb_true_lt (a b : String) (h : strLtb a b = true) : a < b := by
  rw [String.lt_iff_toList_lt]
  simpa [strLtb] using h

theorem strLtb_false_le (a b : String) (h : strLtb a b = false) : b ≤ a := by
  refine le_of_not_lt ?_
  intro hab
  rw [String.lt_iff_toList_lt] at hab
  simp [strLtb] at h
  exact absurd hab (not_lt.mpr h)

theorem sortPass_length :
    ∀ (l : List TrendDataPoint) (x : TrendDataPoint), (sortPass x l).2.length = l.length := by
  intro l
  induction l with
  | nil => intro x; rfl
  | cons y ys ih =>
    intro x
    unfold sortPass
    by_cases h : strLtb y.Date x.Date = true
    · rw [if_pos h]
      simp [ih y]
    · rw [if_neg h]
      simp [ih x]

theorem sortPass_perm :
    ∀ (l : List TrendDataPoint) (x : TrendDataPoint),
      ((sortPass x l).1 :: (sortPass x l).2).Perm (x :: l) := by
  intro l
  induction l with
  | nil => intro x; exact List.Perm.refl _
  | cons y ys ih =>
    intro x
    unfold sortPass
    by_cases h : strLtb y.Date x.Date = true
    · rw [if_pos h]
      exact (List.Perm.swap x (sortPass y ys).1 (sortPass y ys).2).trans ((ih y).cons x)
    · rw [if_neg h]
      exact ((List.Perm.swap y (sortPass x ys).1 (sortPass x ys).2).trans
        ((ih x).cons y)).trans (List.Perm.swap x y ys)

theorem sortPass_fst_le :
    ∀ (l : List TrendDataPoint) (x : TrendDataPoint), (sortPass x l).1.Date ≤ x.Date := by
  intro l
  induction l with
  | nil => intro x; exact le_rfl
  | cons y ys ih =>
    intro x
    unfold sortPass
    by_cases h : strLtb y.Date x.Date = true
    · rw [if_pos h]
      exact le_trans (ih y) (le_of_lt (strLtb_true_lt _ _ h))
    · rw [if_neg h]
      exact ih x

theorem sortPass_min :
    ∀ (l : List TrendDataPoint) (x y : TrendDataPoint),
      y ∈ (sortPass x l).2 → (sortPass x l).1.Date ≤ y.Date := by
  intro l
  induction l with
  | nil =>
    intro x y hy
    simp [sortPass] at hy
  | cons z zs ih =>
    intro x y hy
    unfold sortPass at hy ⊢
    by_cases h : strLtb z.Date x.Date = true
    · rw [if_pos h] at hy ⊢
      rcases List.mem_cons.mp hy with rfl | hy'
      · exact le_trans (sortPass_fst_le zs z) (le_of_lt (strLtb_true_lt _ _ h))
      · exact ih z y hy'
    · rw [if_neg h] at hy ⊢
      rcases List.mem_cons.mp hy with rfl | hy'
      · exact le_trans (sortPass_fst_le zs x)
          (strLtb_false_le _ _ (Bool.eq_false_iff.mpr h))
      · exact ih x y hy'

theorem sortGo_perm :
    ∀ (fuel : Nat) (l : List TrendDataPoint), l.length ≤ fuel →
      (sortTrendPointsGo fuel l).Perm l := by
  intro fuel
  induction fuel with
  | zero =>
    intro l hl
    have hnil : l = [] := List.length_eq_zero.mp (by omega)
    subst hnil
    exact List.Perm.refl _
  | succ n ih =>
    intro l hl
    cases l with
    | nil => exact List.Perm.refl _
    | cons x xs =>
      show ((sortPass x xs).1 :: sortTrendPointsGo n (sortPass x xs).2).Perm (x :: xs)
      have hlen : (sortPass x xs).2.length ≤ n := by
        rw [sortPass_length]
        simpa using hl
      exact ((ih _ hlen).cons _).trans (sortPass_perm xs x)

theorem sortGo_sorted :
    ∀ (fuel : Nat) (l : List TrendDataPoint), l.length ≤ fuel →
      List.Pairwise (fun p q : TrendDataPoint => p.Date ≤ q.Date)
        (sortTrendPointsGo fuel l) := by
  intro fuel
  induction fuel with
  | zero =>
    intro l hl
    have hnil : l = [] := List.length_eq_zero.mp (by omega)
    subst hnil
    exact List.Pairwise.nil
  | succ n ih =>
    intro l hl
    cases l with
    | nil => exact List.Pairwise.nil
    | cons x xs =>
      show List.Pairwise _ ((sortPass x xs).1 :: sortTrendPointsGo n (sortPass x xs).2)
      have hlen : (sortPass x xs).2.length ≤ n := by
        rw [sortPass_length]
        simpa using hl
      refine List.Pairwise.cons ?_ (ih _ hlen)
      intro y hy
      exact sortPass_min xs x y (((sortGo_perm n _ hlen).mem_iff).mp hy)

/-- The conditional update of the smoothing body keeps the date. -/
theorem date_ite (p : TrendDataPoint) (c : Prop) [Decidable c] (v : ℚ) :
    (if c then { p with Distance := v, DistanceMiles := v / 1609.34 } else p).Date =
      p.Date := by
  split_ifs <;> rfl

/-- Smoothing does not change the date series. -/
theorem applyMA_dates (points : List TrendDataPoint) (w : Nat) :
    (applyMovingAverage points w).map (fun p => p.Date) =
      points.map (fun p => p.Date) := by
  unfold applyMovingAverage
  split_ifs with h
  · rfl
  · rw [List.map_map]
    refine Eq.trans (List.map_congr_left ?_) (range_map_getD points emptyPoint
      fun p => p.Date)
    intro i hi
    exact date_ite _ _ _

/-- Transfer of sortedness along equality of the date series. -/
theorem pairwise_dates_eq (l₁ l₂ : List TrendDataPoint)
    (h : l₁.map (fun p => p.Date) = l₂.map (fun p => p.Date))
    (hp : List.Pairwise (fun p q : TrendDataPoint => p.Date ≤ q.Date) l₂) :
    List.Pairwise (fun p q : TrendDataPoint => p.Date ≤ q.Date) l₁ := by
  have h₂ : List.Pairwise (· ≤ ·) (l₂.map fun p => p.Date) := List.pairwise_map.mpr hp
  rw [← h] at h₂
  exact List.pairwise_map.mp h₂

/-- C6: the daily key is the date string itself; the weekly key is the Monday
on or before the date, computed with Sunday treated as weekday 7; the monthly
key is the first day of the month; and the points of CalculateTrends are
sorted ascending by their date key string. -/
theorem trends_period_keys_and_sorted :
    (∀ s : String, getPeriodKey s ("daily") = s) ∧
    (∀ (s : String) (t : CivilDate), parseDate s = some t →
      getPeriodKey s ("weekly") =
        formatCivilDate (civilFromDays (daysFromCivil t - weeklyOffset (daysFromCivil t)))) ∧
    (∀ z : Int, goWeekday (z - weeklyOffset z) = 1 ∧ z - weeklyOffset z ≤ z ∧
      z < z - weeklyOffset z + 7 ∧ (goWeekday z = 0 → weeklyOffset z = 6)) ∧
    (∀ (s : String) (t : CivilDate), parseDate s = some t →
      getPeriodKey s ("monthly") = formatCivilDate ⟨t.year, t.month, 1⟩) ∧
    (∀ (activities : List NormalizedActivity) (period : String) (ro : Bool),
      List.Pairwise (fun p q : TrendDataPoint => p.Date ≤ q.Date)
        ((CalculateTrends activities period ro).Points)) := by
  refine ⟨?_, ?_, ?_, ?_, ?_⟩
  · intro s
    unfold getPeriodKey
    cases h : parseDate s with
    | none => rfl
    | some t =>
      dsimp only
      rw [if_neg (by decide), if_neg (by decide)]
  · intro s t h
    unfold getPeriodKey
    rw [h]
    dsimp only
    rw [if_pos rfl]
  · intro z
    unfold goWeekday weeklyOffset goWeekday
    by_cases h : (z + 4) % 7 = 0
    · rw [if_pos h]
      refine ⟨by omega, by omega, by omega, fun _ => by omega⟩
    · rw [if_neg h]
      refine ⟨by omega, by omega, by omega, fun hz => absurd hz h⟩
  · intro s t h
    unfold getPeriodKey
    rw [h]
    dsimp only
    rw [if_neg (by decide), if_pos rfl]
  · intro activities period ro
    unfold CalculateTrends
    dsimp only
    split_ifs <;>
      first
        | exact List.Pairwise.nil
        | exact pairwise_dates_eq _ _ (applyMA_dates _ 3) (sortGo_sorted _ _ le_rfl)
        | exact sortGo_sorted _ _ le_rfl

/-- C6 witness: the weekly and monthly keys of 2024-05-15 (a Wednesday),
with the parse hypothesis discharged by evaluation. -/
theorem trends_period_keys_witness :
    (parseDate ("2024-05-15") = some (⟨2024, 5, 15⟩ : CivilDate)) ∧
    getPeriodKey ("2024-05-15") ("weekly") =
      formatCivilDate (civilFromDays (daysFromCivil ⟨2024, 5, 15⟩ -
        weeklyOffset (daysFromCivil ⟨2024, 5, 15⟩))) ∧
    getPeriodKey ("2024-05-15") ("monthly") = formatCivilDate ⟨2024, 5, 1⟩ :=
  ⟨by decide, trends_period_keys_and_sorted.2.1 ("2024-05-15") ⟨2024, 5, 15⟩ (by decide),
    trends_period_keys_and_sorted.2.2.2.1 ("2024-05-15") ⟨2024, 5, 15⟩ (by decide)⟩

/-! C5: the distance histogram. -/

/-- The bin with all fields zero, used only as the out-of-range default of
list indexing. -/
def emptyBin : HistogramBin :=
  ⟨"", "", 0, 0, 0⟩

/-- The fully populated bin list of the histogram, before trailing trim. -/
def fullBins (activities : List NormalizedActivity) (useMiles : Bool) : List HistogramBin :=
  populateBins
    (initialBins (histNumBins (histMaxDistance (runsOf activities)) (histBinSize useMiles))
      (histBinSize useMiles))
    (runsOf activities) (histBinSize useMiles)
    (histNumBins (histMaxDistance (runsOf activities)) (histBinSize useMiles))

/-- Specification-side bin index: the floor of distance over bin width,
folded into the last bin from above. -/
def specBinIndex (binSize : ℚ) (numBins : Nat) (d : ℚ) : Nat :=
  min (ratFloor (d / binSize)).toNat (numBins - 1)

theorem modifyAt_length (f : α → α) :
    ∀ (l : List α) (i : Nat), (modifyAt l i f).length = l.length := by
  intro l
  induction l with
  | nil => intro i; rfl
  | cons x xs ih =>
    intro i
    cases i with
    | zero => rfl
    | succ n => simpa [modifyAt] using ih n

theorem modifyAt_getD (f : α → α) (d : α) :
    ∀ (l : List α) (i : Nat), i < l.length → (modifyAt l i f).getD i d = f (l.getD i d) := by
  intro l
  induction l with
  | nil => intro i hi; simp at hi
  | cons x xs ih =>
    intro i hi
    cases i with
    | zero => rfl
    | succ n =>
      simp only [modifyAt, List.getD_cons_succ]
      exact ih n (by simpa using hi)

theorem modifyAt_getD_ne (f : α → α) (d : α) :
    ∀ (l : List α) (i j : Nat), i ≠ j → (modifyAt l i f).getD j d = l.getD j d := by
  intro l
  induction l with
  | nil => intro i j hij; simp [modifyAt]
  | cons x xs ih =>
    intro i j hij
    cases i with
    | zero =>
      cases j with
      | zero => exact absurd rfl hij
      | succ m => rfl
    | succ n =>
      cases j with
      | zero => rfl
      | succ m =>
        simp only [modifyAt, List.getD_cons_succ]
        exact ih n m (by omega)

theorem initialBins_length (n : Nat) (bs : ℚ) : (initialBins n bs).length = n := by
  unfold initialBins
  rw [List.length_map, List.length_range]

theorem populateStep_length (bs : ℚ) (n : Nat) (bins : List HistogramBin)
    (a : NormalizedActivity) : (populateStep bs n bins a).length = bins.length := by
  unfold populateStep
  dsimp only
  split_ifs <;> simp [modifyAt_length]

theorem populateBins_length (bs : ℚ) (n : Nat) :
    ∀ (runs : List NormalizedActivity) (bins : List HistogramBin),
      (populateBins bins runs bs n).length = bins.length := by
  intro runs
  induction runs with
  | nil => intro bins; rfl
  | cons a rest ih =>
    intro bins
    unfold populateBins
    rw [List.foldl_cons]
    rw [show List.foldl (populateStep bs n) (populateStep bs n bins a) rest =
      populateBins (populateStep bs n bins a) rest bs n from rfl]
    rw [ih, populateStep_length]

theorem head?_dropWhile_false (p : α → Bool) :
    ∀ (l : List α) (x : α), (l.dropWhile p).head? = some x → p x = false := by
  intro l
  induction l with
  | nil => intro x hx; simp [List.dropWhile] at hx
  | cons y ys ih =>
    intro x hx
    rw [List.dropWhile_cons] at hx
    by_cases h : p y = true
    · rw [if_pos h] at hx
      exact ih x hx
    · rw [if_neg h] at hx
      cases hx
      exact Bool.eq_false_iff.mpr h

theorem mem_takeWhile_sat (p : α → Bool) :
    ∀ (l : List α) (x : α), x ∈ l.takeWhile p → p x = true := by
  intro l
  induction l with
  | nil => intro x hx; simp [List.takeWhile] at hx
  | cons y ys ih =>
    intro x hx
    rw [List.takeWhile_cons] at hx
    by_cases h : p y = true
    · rw [if_pos h] at hx
      rcases List.mem_cons.mp hx with rfl | hx'
      · exact h
      · exact ih x hx'
    · rw [if_neg h] at hx
      simp at hx

/-- Decomposition of the trailing trim: the kept prefix followed by the
dropped all-empty suffix is the original list. -/
theorem trim_decomp (bins : List HistogramBin) :
    trimTrailingEmptyBins bins ++
      ((bins.reverse.takeWhile fun b => b.Count = 0).reverse) = bins := by
  unfold trimTrailingEmptyBins
  rw [← List.reverse_append, List.takeWhile_append_dropWhile, List.reverse_reverse]

theorem trim_dropped_empty (bins : List HistogramBin) (x : HistogramBin)
    (hx : x ∈ (bins.reverse.takeWhile fun b => b.Count = 0).reverse) : x.Count = 0 := by
  rw [List.mem_reverse] at hx
  have := mem_takeWhile_sat _ _ _ hx
  simpa using this

theorem trim_last_nonempty (bins : List HistogramBin) (b : HistogramBin)
    (hb : (trimTrailingEmptyBins bins).getLast? = some b) : 0 < b.Count := by
  unfold trimTrailingEmptyBins at hb
  rw [List.getLast?_reverse] at hb
  have := head?_dropWhile_false _ _ _ hb
  simp at this
  omega

theorem histMaxDistance_nonneg_aux :
    ∀ (runs : List NormalizedActivity) (m : ℚ), 0 ≤ m →
      0 ≤ runs.foldl (fun m run => if m < run.Distance then run.Distance else m) m := by
  intro runs
  induction runs with
  | nil => intro m hm; exact hm
  | cons a rest ih =>
    intro m hm
    rw [List.foldl_cons]
    by_cases h : m < a.Distance
    · rw [if_pos h]
      exact ih _ (le_trans hm (le_of_lt h))
    · rw [if_neg h]
      exact ih _ hm

theorem histMaxDistance_nonneg (runs : List NormalizedActivity) :
    0 ≤ histMaxDistance runs :=
  histMaxDistance_nonneg_aux runs 0 le_rfl

theorem histBinSize_pos (useMiles : Bool) : 0 < histBinSize useMiles := by
  cases useMiles <;> norm_num [histBinSize]

theorem histNumBins_pos (maxD bs : ℚ) (hmax : 0 ≤ maxD) (hbs : 0 < bs) :
    0 < histNumBins maxD bs := by
  have hceil : 0 ≤ ratCeil (maxD / bs) := by
    unfold ratCeil
    have : (-(maxD / bs) : ℚ) ≤ 0 := by
      simp only [neg_nonpos]
      exact div_nonneg hmax (le_of_lt hbs)
    have := Int.floor_nonpos this
    omega
  unfold histNumBins
  dsimp only
  split_ifs <;> omega

theorem histNumBins_formula (maxD bs : ℚ) :
    histNumBins maxD bs = min ((ratCeil (maxD / bs) + 1).toNat) 50 := by
  unfold histNumBins
  dsimp only
  split_ifs <;> omega

theorem initialBins_count (n : Nat) (bs : ℚ) (i : Nat) (hi : i < n) :
    ((initialBins n bs).getD i emptyBin).Count = 0 := by
  unfold initialBins
  rw [List.getD_eq_getElem?_getD, List.getElem?_map, List.getElem?_range hi]
  rfl

/-- The population pass adds, to each bin, the number of runs whose clamped
bin index is that bin. -/
theorem populate_counts (bs : ℚ) (n : Nat) (hbs : 0 < bs) (hn : 0 < n) :
    ∀ (runs : List NormalizedActivity) (bins : List HistogramBin),
      (∀ a ∈ runs, 0 ≤ a.Distance) → bins.length = n → ∀ i, i < n →
      ((populateBins bins runs bs n).getD i emptyBin).Count =
        (bins.getD i emptyBin).Count +
          (runs.filter fun a => specBinIndex bs n a.Distance = i).length := by
  intro runs
  induction runs with
  | nil =>
    intro bins _ _ i _
    simp [populateBins]
  | cons a rest ih =>
    intro bins hpos hlen i hi
    have ha : 0 ≤ a.Distance := hpos a (List.mem_cons_self a rest)
    have hrest : ∀ x ∈ rest, 0 ≤ x.Distance :=
      fun x hx => hpos x (List.mem_cons_of_mem a hx)
    unfold populateBins
    rw [List.foldl_cons]
    rw [show List.foldl (populateStep bs n) (populateStep bs n bins a) rest =
      populateBins (populateStep bs n bins a) rest bs n from rfl]
    rw [ih (populateStep bs n bins a) hrest (by rw [populateStep_length]; exact hlen) i hi]
    rw [List.filter_cons]
    have hraw : 0 ≤ ratFloor (a.Distance / bs) := by
      unfold ratFloor
      exact Int.floor_nonneg.mpr (div_nonneg ha (le_of_lt hbs))
    have hidx : (if (n : Int) ≤ ratFloor (a.Distance / bs) then (n : Int) - 1
        else ratFloor (a.Distance / bs)).toNat = specBinIndex bs n a.Distance := by
      unfold specBinIndex
      split_ifs with h <;> omega
    have hguard : 0 ≤ (if (n : Int) ≤ ratFloor (a.Distance / bs) then (n : Int) - 1
        else ratFloor (a.Distance / bs)) ∧
        (if (n : Int) ≤ ratFloor (a.Distance / bs) then (n : Int) - 1
          else ratFloor (a.Distance / bs)) < (n : Int) := by
      constructor <;> split_ifs <;> omega
    unfold populateStep
    dsimp only
    rw [if_pos hguard, hidx]
    by_cases hcase : specBinIndex bs n a.Distance = i
    · rw [if_pos (by simpa using hcase), hcase]
      rw [modifyAt_getD _ _ bins i (by omega)]
      simp only [List.length_cons]
      omega
    · rw [if_neg (by simpa using hcase)]
      rw [modifyAt_getD_ne _ _ bins _ i hcase]

/-- The connection of the histogram to its populated bins when runs exist. -/
theorem gdh_nonempty (activities : List NormalizedActivity) (useMiles : Bool)
    (h : runsOf activities ≠ []) :
    (GenerateDistanceHistogram activities useMiles).Bins =
      trimTrailingEmptyBins (fullBins activities useMiles) := by
  unfold GenerateDistanceHistogram
  rw [show (activities.filter fun activity => isRunningActivity activity.SportType) =
    runsOf activities from rfl]
  rw [if_neg (by simpa [List.isEmpty_iff] using h)]
  rfl

/-- C5: the histogram filters to running activities itself and returns the
empty bin list on no runs; the bin count is ceil(max/width)+1 capped at 50;
each populated bin counts exactly the runs whose floor index, clamped into
the last bin, is that bin (so overflow is folded into the last bin and
nothing is dropped); the output is the populated prefix up to the last
nonempty bin: trailing bins are all empty, the kept last bin is nonempty,
and leading or interior empty bins are retained. -/
theorem histogram_spec (activities : List NormalizedActivity) (useMiles : Bool)
    (hd : ∀ a ∈ activities, 0 ≤ a.Distance) :
    (runsOf activities = [] → (GenerateDistanceHistogram activities useMiles).Bins = []) ∧
    (∀ maxD bs : ℚ, histNumBins maxD bs = min ((ratCeil (maxD / bs) + 1).toNat) 50) ∧
    (GenerateDistanceHistogram activities useMiles).Bins.length ≤ 50 ∧
    (fullBins activities useMiles).length =
      histNumBins (histMaxDistance (runsOf activities)) (histBinSize useMiles) ∧
    (∀ i, i < histNumBins (histMaxDistance (runsOf activities)) (histBinSize useMiles) →
      ((fullBins activities useMiles).getD i emptyBin).Count =
        ((runsOf activities).filter fun a =>
          specBinIndex (histBinSize useMiles)
            (histNumBins (histMaxDistance (runsOf activities)) (histBinSize useMiles))
            a.Distance = i).length) ∧
    (runsOf activities ≠ [] →
      (GenerateDistanceHistogram activities useMiles).Bins =
        (fullBins activities useMiles).take
          (GenerateDistanceHistogram activities useMiles).Bins.length ∧
      (∀ j, (GenerateDistanceHistogram activities useMiles).Bins.length ≤ j →
        j < (fullBins activities useMiles).length →
        ((fullBins activities useMiles).getD j emptyBin).Count = 0) ∧
      (∀ b, (GenerateDistanceHistogram activities useMiles).Bins.getLast? = some b →
        0 < b.Count)) := by
  have hdruns : ∀ a ∈ runsOf activities, 0 ≤ a.Distance :=
    fun a ha => hd a (List.mem_of_mem_filter ha)
  have hbs := histBinSize_pos useMiles
  have hn := histNumBins_pos (histMaxDistance (runsOf activities)) (histBinSize useMiles)
    (histMaxDistance_nonneg _) hbs
  have hfull : (fullBins activities useMiles).length =
      histNumBins (histMaxDistance (runsOf activities)) (histBinSize useMiles) := by
    unfold fullBins
    rw [populateBins_length, initialBins_length]
  refine ⟨?_, histNumBins_formula, ?_, hfull, ?_, ?_⟩
  · intro h
    unfold GenerateDistanceHistogram
    rw [show (activities.filter fun activity => isRunningActivity activity.SportType) =
      runsOf activities from rfl]
    rw [if_pos (by simpa [List.isEmpty_iff] using h)]
  · by_cases h : runsOf activities = []
    · unfold GenerateDistanceHistogram
      rw [show (activities.filter fun activity => isRunningActivity activity.SportType) =
        runsOf activities from rfl]
      rw [if_pos (by simpa [List.isEmpty_iff] using h)]
      simp
    · rw [gdh_nonempty activities useMiles h]
      have h2 := congrArg List.length (trim_decomp (fullBins activities useMiles))
      rw [List.length_append] at h2
      have h3 := hfull
      rw [histNumBins_formula] at h3
      omega
  · intro i hi
    unfold fullBins
    rw [populate_counts (histBinSize useMiles) _ hbs hn (runsOf activities)
      (initialBins _ _) hdruns (initialBins_length _ _) i hi]
    rw [initialBins_count _ _ i hi]
    omega
  · intro h
    rw [gdh_nonempty activities useMiles h]
    have hdec := trim_decomp (fullBins activities useMiles)
    refine ⟨?_, ?_, trim_last_nonempty _⟩
    · conv_lhs => rw [← List.take_left (trimTrailingEmptyBins (fullBins activities useMiles))
        (((fullBins activities useMiles).reverse.takeWhile fun b => b.Count = 0).reverse)]
      rw [hdec]
    · intro j hj hjlen
      rw [← hdec, List.getD_append_right _ _ _ _ hj]
      have hjlt : j - (trimTrailingEmptyBins (fullBins activities useMiles)).length <
          (((fullBins activities useMiles).reverse.takeWhile
            fun b => b.Count = 0).reverse).length := by
        have h4 := congrArg List.length hdec
        rw [List.length_append] at h4
        omega
      refine trim_dropped_empty (fullBins activities useMiles) _ ?_
      rw [List.getD_eq_getElem?_getD, List.getElem?_eq_getElem hjlt, Option.getD_some]
      exact List.getElem_mem hjlt

/-- C5 witness: the histogram characterization at a single 5000 m run in mile
mode, the distance hypothesis discharged by evaluation. -/
theorem histogram_spec_witness :
    (runsOf [exRun1] = [] → (GenerateDistanceHistogram [exRun1] true).Bins = []) ∧
    (∀ maxD bs : ℚ, histNumBins maxD bs = min ((ratCeil (maxD / bs) + 1).toNat) 50) ∧
    (GenerateDistanceHistogram [exRun1] true).Bins.length ≤ 50 ∧
    (fullBins [exRun1] true).length =
      histNumBins (histMaxDistance (runsOf [exRun1])) (histBinSize true) ∧
    (∀ i, i < histNumBins (histMaxDistance (runsOf [exRun1])) (histBinSize true) →
      ((fullBins [exRun1] true).getD i emptyBin).Count =
        ((runsOf [exRun1]).filter fun a =>
          specBinIndex (histBinSize true)
            (histNumBins (histMaxDistance (runsOf [exRun1])) (histBinSize true))
            a.Distance = i).length) ∧
    (runsOf [exRun1] ≠ [] →
      (GenerateDistanceHistogram [exRun1] true).Bins =
        (fullBins [exRun1] true).take (GenerateDistanceHistogram [exRun1] true).Bins.length ∧
      (∀ j, (GenerateDistanceHistogram [exRun1] true).Bins.length ≤ j →
        j < (fullBins [exRun1] true).length →
        ((fullBins [exRun1] true).getD j emptyBin).Count = 0) ∧
      (∀ b, (GenerateDistanceHistogram [exRun1] true).Bins.getLast? = some b →
        0 < b.Count)) :=
  histogram_spec [exRun1] true (by decide)

end StravaStats
